import Mathlib

/-!
Verification development for the network-metadata normalization core:
the canonical network model and renderer (`network.rs`), the bare-metal
provider adapter (`providers/packet/mod.rs`) and the virtualization
platform adapter (`providers/proxmoxve/cloudconfig.rs`).

The Rust code is shallowly embedded below: each Rust function becomes an
executable Lean function over explicit data; fallible Rust code (`Result`)
becomes `Except AErr`.  External library behavior that the code relies on
(IP address / MAC parsing and display from `std::net`, `pnet_base` and
`ipnetwork`) is modelled by concrete executable functions.
-/

set_option maxHeartbeats 2000000

/-- Byte-wise MAC address, as in `pnet_base::MacAddr`. -/
structure MacAddr where
  a : Nat
  b : Nat
  c : Nat
  d : Nat
  e : Nat
  f : Nat
deriving DecidableEq, Repr

/-- Four octets of an IPv4 address, as in `std::net::Ipv4Addr`. -/
structure Ipv4Addr where
  a : Nat
  b : Nat
  c : Nat
  d : Nat
deriving DecidableEq, Repr

/-- Eight 16-bit groups of an IPv6 address, as in `std::net::Ipv6Addr`. -/
structure Ipv6Addr where
  a : Nat
  b : Nat
  c : Nat
  d : Nat
  e : Nat
  f : Nat
  g : Nat
  h : Nat
deriving DecidableEq, Repr

/-- `std::net::IpAddr`. -/
inductive IpAddr where
  | v4 (addr : Ipv4Addr)
  | v6 (addr : Ipv6Addr)
deriving DecidableEq, Repr

/-- `IpAddr::is_ipv6`. -/
def IpAddr.isIpv6 : IpAddr → Bool
  | .v4 _ => false
  | .v6 _ => true

/-- `ipnetwork::IpNetwork`: an address together with a prefix length. -/
inductive IpNetwork where
  | v4 (addr : Ipv4Addr) (plen : Nat)
  | v6 (addr : Ipv6Addr) (plen : Nat)
deriving DecidableEq, Repr

/-- Error kinds surfaced by the embedded code (the Rust code uses `anyhow`
errors; each distinct failure site gets its own constructor here). -/
inductive AErr where
  | missingIdentifier
  | unknownBondingMode (mode : Nat)
  | invalidMac (s : String)
  | invalidNetmask
  | invalidCidr
  | invalidIp (s : String)
  | bondWithoutName
  | tooManyNameservers
  | unsupportedConfigType (t : String)
  | missingAddress
deriving DecidableEq, Repr

/- ### String display helpers (modelled from the external libraries) -/

/-- Lowercase hexadecimal digit. -/
def hexChar (n : Nat) : Char :=
  if n < 10 then Char.ofNat (48 + n) else Char.ofNat (87 + n)

/-- Two-digit lowercase hexadecimal, as in Rust `{:02x}` for a byte. -/
def hex2 (n : Nat) : String :=
  String.mk [hexChar (n / 16 % 16), hexChar (n % 16)]

/-- `pnet_base::MacAddr` display: six colon-separated two-digit hex bytes. -/
def macToString (m : MacAddr) : String :=
  hex2 m.a ++ ":" ++ hex2 m.b ++ ":" ++ hex2 m.c ++ ":" ++ hex2 m.d
    ++ ":" ++ hex2 m.e ++ ":" ++ hex2 m.f

/-- Dotted-quad IPv4 display. -/
def ipv4ToString (x : Ipv4Addr) : String :=
  toString x.a ++ "." ++ toString x.b ++ "." ++ toString x.c ++ "." ++ toString x.d

/-- Hex display of one 16-bit group without leading zeros, as in Rust `{:x}`. -/
def hexGroupStr (n : Nat) : String :=
  let ds := [n / 4096 % 16, n / 256 % 16, n / 16 % 16, n % 16]
  let ds2 := ds.dropWhile (fun d => d == 0)
  if ds2.isEmpty then "0" else String.mk (ds2.map hexChar)

/-- Colon-joined hex groups. -/
def joinColonHex : List Nat → String
  | [] => ""
  | [x] => hexGroupStr x
  | x :: rest => hexGroupStr x ++ ":" ++ joinColonHex rest

def Ipv6Addr.groups (x : Ipv6Addr) : List Nat :=
  [x.a, x.b, x.c, x.d, x.e, x.f, x.g, x.h]

/-- Length of the zero run starting at the head of the list. -/
def zeroRunLen : List Nat → Nat
  | [] => 0
  | x :: rest => if x = 0 then zeroRunLen rest + 1 else 0

/-- Leftmost-longest zero run `(start, length)` of a group list, as used by
the `std` IPv6 display. -/
def bestZeroRun : List Nat → Nat × Nat
  | [] => (0, 0)
  | x :: rest =>
    let cur := zeroRunLen (x :: rest)
    let (bs, bl) := bestZeroRun rest
    if cur ≥ bl then (0, cur) else (bs + 1, bl)

/-- Modelled from the external `std::net::Ipv6Addr` display: the
leftmost-longest run of at least two zero groups is compressed to `::`,
and IPv4-mapped addresses display as `::ffff:a.b.c.d`. -/
def ipv6ToString (x : Ipv6Addr) : String :=
  let gs := x.groups
  if x.a = 0 ∧ x.b = 0 ∧ x.c = 0 ∧ x.d = 0 ∧ x.e = 0 ∧ x.f = 65535 then
    "::ffff:" ++ ipv4ToString ⟨x.g / 256 % 256, x.g % 256, x.h / 256 % 256, x.h % 256⟩
  else
    let (s, len) := bestZeroRun gs
    if len ≥ 2 then
      joinColonHex (gs.take s) ++ "::" ++ joinColonHex (gs.drop (s + len))
    else
      joinColonHex gs

/-- `std::net::IpAddr` display. -/
def ipToString : IpAddr → String
  | .v4 x => ipv4ToString x
  | .v6 x => ipv6ToString x

/-- `ipnetwork::IpNetwork` display: `addr/plen`. -/
def ipNetToString : IpNetwork → String
  | .v4 x p => ipv4ToString x ++ "/" ++ toString p
  | .v6 x p => ipv6ToString x ++ "/" ++ toString p

/- ### Parsers (modelled from the external libraries) -/

/- All parsing helpers below are written as structural recursion over
`List Char` so that they evaluate inside the kernel. -/

def isHexDigitChar (c : Char) : Bool :=
  c.isDigit || (97 ≤ c.toNat && c.toNat ≤ 102) || (65 ≤ c.toNat && c.toNat ≤ 70)

def hexDigitVal (c : Char) : Nat :=
  if c.isDigit then c.toNat - 48
  else if 97 ≤ c.toNat then c.toNat - 87
  else c.toNat - 55

/-- Split a character list on a single-character separator, keeping empty
segments, as `str::split` does. -/
def splitOnCharAux (c : Char) : List Char → List Char → List (List Char)
  | [], acc => [acc.reverse]
  | x :: rest, acc =>
    if x == c then acc.reverse :: splitOnCharAux c rest []
    else splitOnCharAux c rest (x :: acc)

def splitOnChar (c : Char) (s : List Char) : List (List Char) :=
  splitOnCharAux c s []

/-- Split on the two-character separator `::`, greedy left to right. -/
def splitColonColon : List Char → List Char → List (List Char)
  | a :: b :: rest, acc =>
    if a == ':' && b == ':' then acc.reverse :: splitColonColon rest []
    else splitColonColon (b :: rest) (a :: acc)
  | rest, acc => [acc.reverse ++ rest]

def allDigits (l : List Char) : Bool := l.all (fun c => c.isDigit)

def decVal (l : List Char) : Nat :=
  l.foldl (fun acc c => acc * 10 + (c.toNat - 48)) 0

def hexVal (l : List Char) : Nat :=
  l.foldl (fun acc c => acc * 16 + hexDigitVal c) 0

/-- Nonempty all-digit numeral, as `str::parse::<u32>` (sans overflow). -/
def parseNatDigits (l : List Char) : Option Nat :=
  if l.isEmpty then none
  else if allDigits l then some (decVal l) else none

/-- Hex byte of one or two digits, as accepted by `pnet_base::MacAddr`
parsing for each colon-separated part. -/
def parseHexByte (l : List Char) : Option Nat :=
  if l.length = 0 ∨ l.length > 2 then none
  else if l.all isHexDigitChar then some (hexVal l)
  else none

/-- Modelled from the external `pnet_base::MacAddr::from_str`: six
colon-separated hex bytes. -/
def parseMacAddr (s : String) : Option MacAddr :=
  match (splitOnChar ':' s.data).mapM parseHexByte with
  | some [a, b, c, d, e, f] => some ⟨a, b, c, d, e, f⟩
  | _ => none

/-- Decimal octet with no leading zero, as in `std` IPv4 parsing. -/
def parseDecByte (l : List Char) : Option Nat :=
  if l.length = 0 ∨ l.length > 3 then none
  else if allDigits l then
    if 1 < l.length ∧ l.head? = some '0' then none
    else if decVal l ≤ 255 then some (decVal l) else none
  else none

/-- Modelled from the external `std::net::Ipv4Addr::from_str`. -/
def parseIpv4 (s : String) : Option Ipv4Addr :=
  match (splitOnChar '.' s.data).mapM parseDecByte with
  | some [a, b, c, d] => some ⟨a, b, c, d⟩
  | _ => none

/-- 16-bit hex group of one to four digits. -/
def parseHexGroup (l : List Char) : Option Nat :=
  if l.length = 0 ∨ l.length > 4 then none
  else if l.all isHexDigitChar then some (hexVal l)
  else none

def mk8Groups : List Nat → Option Ipv6Addr
  | [a, b, c, d, e, f, g, h] => some ⟨a, b, c, d, e, f, g, h⟩
  | _ => none

/-- Modelled from the external `std::net::Ipv6Addr::from_str` (the
colon-hex forms, with at most one `::`; the embedded-IPv4 tail forms are
not needed by this development). -/
def parseIpv6 (s : String) : Option Ipv6Addr :=
  match splitColonColon s.data [] with
  | [one] =>
    match (splitOnChar ':' one).mapM parseHexGroup with
    | some gs => if gs.length = 8 then mk8Groups gs else none
    | none => none
  | [l, r] =>
    let lg := if l.isEmpty then some [] else (splitOnChar ':' l).mapM parseHexGroup
    let rg := if r.isEmpty then some [] else (splitOnChar ':' r).mapM parseHexGroup
    match lg, rg with
    | some ls, some rs =>
      if ls.length + rs.length ≤ 7 then
        mk8Groups (ls ++ List.replicate (8 - ls.length - rs.length) 0 ++ rs)
      else none
    | _, _ => none
  | _ => none

/-- Modelled from the external `std::net::IpAddr::from_str`: IPv4 form
first, otherwise IPv6. -/
def parseIpAddr (s : String) : Option IpAddr :=
  match parseIpv4 s with
  | some x => some (.v4 x)
  | none => (parseIpv6 s).map .v6

/- ### ipnetwork helpers -/

/-- The `w`-bit value whose `p` leading bits are ones. -/
def onesMask (w p : Nat) : Nat := 2 ^ w - 2 ^ (w - p)

def v4Val (x : Ipv4Addr) : Nat :=
  x.a * 2 ^ 24 + x.b * 2 ^ 16 + x.c * 2 ^ 8 + x.d

def v6Val (x : Ipv6Addr) : Nat :=
  x.a * 2 ^ 112 + x.b * 2 ^ 96 + x.c * 2 ^ 80 + x.d * 2 ^ 64
    + x.e * 2 ^ 48 + x.f * 2 ^ 32 + x.g * 2 ^ 16 + x.h

/-- The unique plen whose contiguous leading-ones mask over `w` bits equals
`m`, if any. -/
def maskToPrefixLen (w m : Nat) : Option Nat :=
  (List.range (w + 1)).find? (fun p => m == onesMask w p)

/-- `ipnetwork::ip_mask_to_prefix`: a netmask must be a contiguous run of
leading one bits. -/
def ipMaskToPrefixLen : IpAddr → Except AErr Nat
  | .v4 x =>
    match maskToPrefixLen 32 (v4Val x) with
    | some p => .ok p
    | none => .error .invalidNetmask
  | .v6 x =>
    match maskToPrefixLen 128 (v6Val x) with
    | some p => .ok p
    | none => .error .invalidNetmask

/-- `ipnetwork::IpNetwork::new`: the plen must not exceed the family width. -/
def IpNetwork.new : IpAddr → Nat → Except AErr IpNetwork
  | .v4 x, p => if p ≤ 32 then .ok (.v4 x p) else .error .invalidCidr
  | .v6 x, p => if p ≤ 128 then .ok (.v6 x p) else .error .invalidCidr

/-- `ipnetwork::IpNetwork::with_netmask`: address and netmask must be of
the same family and the mask contiguous. -/
def IpNetwork.with_netmask (addr mask : IpAddr) : Except AErr IpNetwork :=
  match addr, mask with
  | .v4 x, .v4 m =>
    match maskToPrefixLen 32 (v4Val m) with
    | some p => .ok (.v4 x p)
    | none => .error .invalidNetmask
  | .v6 x, .v6 m =>
    match maskToPrefixLen 128 (v6Val m) with
    | some p => .ok (.v6 x p)
    | none => .error .invalidNetmask
  | _, _ => .error .invalidNetmask

/-- `ipnetwork::IpNetwork::from_str`: `addr/plen`, or a bare address with
the full-width plen implied. -/
def parseIpNetworkStr (s : String) : Except AErr IpNetwork :=
  match splitOnChar '/' s.data with
  | [a] =>
    match parseIpAddr (String.mk a) with
    | some (.v4 x) => .ok (.v4 x 32)
    | some (.v6 x) => .ok (.v6 x 128)
    | none => .error (.invalidIp s)
  | [a, p] =>
    match parseIpAddr (String.mk a), parseNatDigits p with
    | some (.v4 x), some pl => if pl ≤ 32 then .ok (.v4 x pl) else .error .invalidCidr
    | some (.v6 x), some pl => if pl ≤ 128 then .ok (.v6 x pl) else .error .invalidCidr
    | _, _ => .error (.invalidIp s)
  | _ => .error (.invalidIp s)

/- ### network.rs: the canonical network model -/

/-- `network::DhcpSetting`. -/
inductive DhcpSetting where
  | Both
  | V4
  | V6
deriving DecidableEq, Repr

/-- `DhcpSetting::sd_dhcp_setting`. -/
def DhcpSetting.sd_dhcp_setting : DhcpSetting → String
  | .Both => "yes"
  | .V4 => "ipv4"
  | .V6 => "ipv6"

/-- `network::NetworkRoute`. -/
structure NetworkRoute where
  destination : IpNetwork
  gateway : IpAddr
deriving DecidableEq, Repr

/-- `network::Interface`. -/
structure Interface where
  name : Option String
  mac_address : Option MacAddr
  path : Option String
  priority : Nat
  nameservers : List IpAddr
  ip_addresses : List IpNetwork
  dhcp : Option DhcpSetting
  routes : List NetworkRoute
  bond : Option String
  unmanaged : Bool
  required_for_online : Option String
deriving DecidableEq, Repr

/-- `network::SdSection`. -/
structure SdSection where
  name : String
  attributes : List (String × String)
deriving DecidableEq, Repr

/-- `network::NetDevKind`. -/
inductive NetDevKind where
  | Bond
  | Vlan
deriving DecidableEq, Repr

/-- `network::VirtualNetDev`. -/
structure VirtualNetDev where
  name : String
  kind : NetDevKind
  mac_address : MacAddr
  priority : Option Nat
  sd_netdev_sections : List SdSection
deriving DecidableEq, Repr

/-- The fixed `BONDING_MODES` table. -/
def BONDING_MODES : List (Nat × String) :=
  [(0, "balance-rr"), (1, "active-backup"), (2, "balance-xor"), (3, "broadcast"),
   (4, "802.3ad"), (5, "balance-tlb"), (6, "balance-alb")]

/-- `network::bonding_mode_to_string`: first matching table entry, error
otherwise. -/
def bonding_mode_to_string (mode : Nat) : Except AErr String :=
  match BONDING_MODES.find? (fun p => p.1 == mode) with
  | some p => .ok p.2
  | none => .error (.unknownBondingMode mode)

/-- Rust's `{:02}` format for the priority: zero-padded to at least two
digits, never truncated. -/
def pad2 (n : Nat) : String :=
  if n < 10 then "0" ++ toString n else toString n

/-- `Interface::sd_network_unit_name`: identifier precedence
name over MAC over path, then `{priority:02}-{identifier}.network`. -/
def Interface.sd_network_unit_name (i : Interface) : Except AErr String :=
  match i.name, i.mac_address, i.path with
  | some n, _, _ => .ok (pad2 i.priority ++ "-" ++ n ++ ".network")
  | none, some m, _ => .ok (pad2 i.priority ++ "-" ++ macToString m ++ ".network")
  | none, none, some p => .ok (pad2 i.priority ++ "-" ++ p ++ ".network")
  | none, none, none => .error .missingIdentifier

/-- The `DNS=` lines of the `[Network]` section, one per nameserver in
list order. -/
def dnsLines : List IpAddr → String
  | [] => ""
  | a :: rest => "DNS=" ++ ipToString a ++ "\n" ++ dnsLines rest

/-- The `[Address]` blocks, each preceded by a blank line. -/
def addrBlocks : List IpNetwork → String
  | [] => ""
  | a :: rest => "\n[Address]\nAddress=" ++ ipNetToString a ++ "\n" ++ addrBlocks rest

/-- The `[Route]` blocks, each preceded by a blank line, destination before
gateway. -/
def routeBlocks : List NetworkRoute → String
  | [] => ""
  | r :: rest =>
    "\n[Route]\nDestination=" ++ ipNetToString r.destination
      ++ "\nGateway=" ++ ipToString r.gateway ++ "\n" ++ routeBlocks rest

/-- `Interface::config`: the rendered `systemd.network` unit text, following
the exact sequence of `writeln!` calls in the source. -/
def Interface.config (i : Interface) : String :=
  "[Match]\n"
  ++ (match i.name with | some n => "Name=" ++ n ++ "\n" | none => "")
  ++ (match i.mac_address with | some m => "MACAddress=" ++ macToString m ++ "\n" | none => "")
  ++ (match i.path with | some p => "Path=" ++ p ++ "\n" | none => "")
  ++ "\n[Network]\n"
  ++ (match i.dhcp with | some d => "DHCP=" ++ d.sd_dhcp_setting ++ "\n" | none => "")
  ++ dnsLines i.nameservers
  ++ (match i.bond with | some b => "Bond=" ++ b ++ "\n" | none => "")
  ++ (if i.unmanaged || i.required_for_online.isSome then "\n[Link]\n" else "")
  ++ (if i.unmanaged then "Unmanaged=yes\n" else "")
  ++ (match i.required_for_online with | some o => "RequiredForOnline=" ++ o ++ "\n" | none => "")
  ++ addrBlocks i.ip_addresses
  ++ routeBlocks i.routes

/- ### providers/packet/mod.rs: the bare-metal adapter -/

/-- `PacketInterfaceInfo`. -/
structure PacketInterfaceInfo where
  name : String
  mac : String
  bond : Option String
deriving DecidableEq, Repr

/-- `PacketAddressInfo` (the address fields are already-decoded values, as
serde hands them to `parse_network`). -/
structure PacketAddressInfo where
  id : String
  address_family : Int
  public : Bool
  management : Bool
  address : IpAddr
  netmask : IpAddr
  gateway : IpAddr
deriving DecidableEq, Repr

/-- `PacketBondingMode`. -/
structure PacketBondingMode where
  mode : Nat
deriving DecidableEq, Repr

/-- `PacketNetworkInfo`. -/
structure PacketNetworkInfo where
  interfaces : List PacketInterfaceInfo
  addresses : List PacketAddressInfo
  bonding : PacketBondingMode
deriving DecidableEq, Repr

/-- The physical `Interface` pushed for each descriptor in the first loop of
`parse_network`. -/
def mkPhysIface (i : PacketInterfaceInfo) (mac : MacAddr) : Interface :=
  { mac_address := some mac
    bond := i.bond
    name := none
    path := none
    priority := 10
    nameservers := []
    ip_addresses := []
    dhcp := none
    routes := []
    unmanaged := i.bond.isNone
    required_for_online := if i.bond.isNone then none else some "no" }

/-- The candidate bond `Interface` synthesized for a bond tag in the first
loop of `parse_network`. -/
def mkBondIface (dns : List IpAddr) (bond_name : String) : Interface :=
  { name := some bond_name
    priority := 5
    nameservers := dns
    mac_address := none
    path := none
    bond := none
    ip_addresses := []
    dhcp := none
    routes := []
    unmanaged := false
    required_for_online := some "degraded-carrier" }

/-- The first loop of `parse_network`: parse each MAC, push a physical
interface, and push a `(mac, bond)` pair for the bond tag unless an equal
bond value was already pushed. -/
def phase1 (dns : List IpAddr) :
    List PacketInterfaceInfo → List Interface → List (MacAddr × Interface) →
    Except AErr (List Interface × List (MacAddr × Interface))
  | [], ifaces, bonds => .ok (ifaces, bonds)
  | i :: rest, ifaces, bonds =>
    match parseMacAddr i.mac with
    | none => .error (.invalidMac i.mac)
    | some mac =>
      let ifaces2 := ifaces ++ [mkPhysIface i mac]
      match i.bond with
      | some bn =>
        let bond := mkBondIface dns bn
        let bonds2 :=
          if bonds.any (fun p => decide (bond = p.2)) then bonds
          else bonds ++ [(mac, bond)]
        phase1 dns rest ifaces2 bonds2
      | none => phase1 dns rest ifaces2 bonds

/-- The route destination chosen for an address in `parse_network`. -/
def addrRouteDest (a : PacketAddressInfo) : IpNetwork :=
  match a.public, a.address with
  | false, .v4 _ => IpNetwork.v4 ⟨10, 0, 0, 0⟩ 8
  | true, .v4 _ => IpNetwork.v4 ⟨0, 0, 0, 0⟩ 0
  | _, .v6 _ => IpNetwork.v6 ⟨0, 0, 0, 0, 0, 0, 0, 0⟩ 0

/-- The CIDR computed for an address: `ip_mask_to_prefix` then
`IpNetwork::new`. -/
def addrNet (a : PacketAddressInfo) : Except AErr IpNetwork :=
  match ipMaskToPrefixLen a.netmask with
  | .error e => .error e
  | .ok p => IpNetwork.new a.address p

/-- The address loop of `parse_network`: attach every supplied address and
its derived route to the given (first) bond, in input order. -/
def attachAddrs : List PacketAddressInfo → Interface → Except AErr Interface
  | [], b => .ok b
  | a :: rest, b =>
    match addrNet a with
    | .error e => .error e
    | .ok net =>
      attachAddrs rest
        { b with
          ip_addresses := b.ip_addresses ++ [net]
          routes := b.routes ++ [{ destination := addrRouteDest a, gateway := a.gateway }] }

/-- The shared bonding attribute list of `parse_network`, with the extra
LACP entry exactly for mode 4. -/
def mkBondAttrs (mode : Nat) : Except AErr (List (String × String)) :=
  match bonding_mode_to_string mode with
  | .error e => .error e
  | .ok ms =>
    let attrs := [("TransmitHashPolicy", "layer3+4"), ("MIIMonitorSec", ".1"),
                  ("UpDelaySec", ".2"), ("DownDelaySec", ".2"), ("Mode", ms)]
    .ok (if mode == 4 then attrs ++ [("LACPTransmitRate", "fast")] else attrs)

/-- The final loop of `parse_network`: emit a bond netdev per synthesized
bond and append the bond interfaces to the interface list. -/
def phase4 (attrs : List (String × String)) :
    List (MacAddr × Interface) → List Interface → List VirtualNetDev →
    Except AErr (List Interface × List VirtualNetDev)
  | [], ifaces, devs => .ok (ifaces, devs)
  | (mac, bond) :: rest, ifaces, devs =>
    match bond.name with
    | none => .error .bondWithoutName
    | some nm =>
      phase4 attrs rest (ifaces ++ [bond])
        (devs ++ [{ name := nm, kind := .Bond, mac_address := mac, priority := some 5,
                    sd_netdev_sections := [{ name := "Bond", attributes := attrs }] }])

/-- The trailing unmanaged fallback interface of `parse_network`. -/
def fallbackIface : Interface :=
  { path := some "pci-*"
    unmanaged := true
    priority := 80
    name := none
    mac_address := none
    bond := none
    nameservers := []
    ip_addresses := []
    dhcp := none
    routes := []
    required_for_online := none }

/-- `PacketProvider::parse_network`, with the externally resolved DNS list
(`get_dns_servers`) passed in as an already-resolved input. -/
def parse_network (dns : List IpAddr) (ni : PacketNetworkInfo) :
    Except AErr (List Interface × List VirtualNetDev) :=
  match phase1 dns ni.interfaces [] [] with
  | .error e => .error e
  | .ok (interfaces, bonds) =>
    match bonds with
    | [] => .ok (interfaces, [])
    | (m0, b0) :: rest =>
      match attachAddrs ni.addresses b0 with
      | .error e => .error e
      | .ok b0' =>
        match mkBondAttrs ni.bonding.mode with
        | .error e => .error e
        | .ok attrs =>
          match phase4 attrs ((m0, b0') :: rest) interfaces [] with
          | .error e => .error e
          | .ok (ifaces2, devs) => .ok (ifaces2 ++ [fallbackIface], devs)

/- ### providers/proxmoxve/cloudconfig.rs: the virtualization adapter -/

/-- `ProxmoxVECloudNetworkConfigSubnet`. -/
structure SubnetCfg where
  subnet_type : String
  address : Option String
  netmask : Option String
  gateway : Option String
deriving DecidableEq, Repr

/-- `ProxmoxVECloudNetworkConfigEntry`. -/
structure NetCfgEntry where
  network_type : String
  name : Option String
  mac_address : Option String
  address : List String
  search : List String
  subnets : List SubnetCfg
deriving DecidableEq, Repr

/-- `pat` is a contiguous sublist of `s`. -/
def containsList : List Char → List Char → Bool
  | [], pat => pat.isEmpty
  | s@(_ :: rest), pat => pat.isPrefixOf s || containsList rest pat

/-- Rust `str::contains` for a literal pattern. -/
def strContains (s pat : String) : Bool :=
  containsList s.data pat.data

/-- Warning logged for a static subnet without a gateway. -/
def staticNoGatewayWarn : String := "found subnet type \"static\" without gateway"

/-- Warning logged for an `ipv6_slaac` subnet. -/
def slaacWarn : String := "subnet type \"ipv6_slaac\" not supported, ignoring"

/-- The interface skeleton built at the top of `to_interface`. -/
def baseProxIface (e : NetCfgEntry) : Interface :=
  { name := e.name
    nameservers := []
    ip_addresses := []
    routes := []
    mac_address := none
    bond := none
    path := none
    priority := 20
    dhcp := none
    unmanaged := false
    required_for_online := none }

/-- One iteration of the subnet loop of `to_interface`.  The second
component of the state collects the warnings the Rust code logs. -/
def processSubnet (acc : Interface × List String) (s : SubnetCfg) :
    Except AErr (Interface × List String) :=
  let step : Except AErr (Interface × List String) :=
    if strContains s.subnet_type "static" then
      match s.address with
      | none => .error .missingAddress
      | some addrStr =>
        let netE : Except AErr IpNetwork :=
          match s.netmask with
          | some maskStr =>
            match parseIpAddr addrStr with
            | none => .error (.invalidIp addrStr)
            | some av =>
              match parseIpAddr maskStr with
              | none => .error (.invalidIp maskStr)
              | some mv => IpNetwork.with_netmask av mv
          | none => parseIpNetworkStr addrStr
        match netE with
        | .error e => .error e
        | .ok net =>
          let iface2 := { acc.1 with ip_addresses := acc.1.ip_addresses ++ [net] }
          match s.gateway with
          | some gStr =>
            match parseIpAddr gStr with
            | none => .error (.invalidIp gStr)
            | some gw =>
              .ok ({ iface2 with
                      routes := iface2.routes ++
                        [{ destination :=
                             if gw.isIpv6 then IpNetwork.v6 ⟨0, 0, 0, 0, 0, 0, 0, 0⟩ 0
                             else IpNetwork.v4 ⟨0, 0, 0, 0⟩ 0
                           gateway := gw }] }, acc.2)
          | none => .ok (iface2, acc.2 ++ [staticNoGatewayWarn])
    else
      .ok acc
  match step with
  | .error e => .error e
  | .ok (iface, warns) =>
    if s.subnet_type == "ipv6_slaac" then .ok (iface, warns ++ [slaacWarn])
    else .ok (iface, warns)

/-- The subnet loop of `to_interface`. -/
def foldSubnets : List SubnetCfg → (Interface × List String) →
    Except AErr (Interface × List String)
  | [], acc => .ok acc
  | s :: rest, acc =>
    match processSubnet acc s with
    | .error e => .error e
    | .ok acc2 => foldSubnets rest acc2

/-- `ProxmoxVECloudNetworkConfigEntry::to_interface` (returning the
interface together with the warnings logged along the way). -/
def to_interface (e : NetCfgEntry) : Except AErr (Interface × List String) :=
  if e.network_type ≠ "physical" then
    .error (.unsupportedConfigType e.network_type)
  else
    match foldSubnets e.subnets (baseProxIface e, []) with
    | .error er => .error er
    | .ok acc =>
      match e.mac_address with
      | some m =>
        match parseMacAddr m with
        | none => .error (.invalidMac m)
        | some mv => .ok ({ acc.1 with mac_address := some mv }, acc.2)
      | none => .ok acc

/-- Fail-fast effectful map, as Rust's `collect::<Result<Vec<_>, _>>()`. -/
def mapE (f : α → Except AErr β) : List α → Except AErr (List β)
  | [] => .ok []
  | a :: rest =>
    match f a with
    | .error e => .error e
    | .ok b =>
      match mapE f rest with
      | .error e => .error e
      | .ok bs => .ok (b :: bs)

/-- `IpAddr::from_str` lifted to `Except`, as used for nameserver addresses. -/
def parseIpAddrE (s : String) : Except AErr IpAddr :=
  match parseIpAddr s with
  | some a => .ok a
  | none => .error (.invalidIp s)

/-- `ProxmoxVECloudConfig::networks`, over the already-decoded entry list of
`network_config.config`. -/
def networks (cfg : List NetCfgEntry) : Except AErr (List Interface) :=
  let nss := cfg.filter (fun c => c.network_type == "nameserver")
  if nss.length > 1 then
    .error .tooManyNameservers
  else
    match mapE to_interface (cfg.filter (fun c => c.network_type == "physical")) with
    | .error e => .error e
    | .ok parts =>
      match parts.map (fun p => p.1), nss with
      | i0 :: restI, ns0 :: _ =>
        match mapE parseIpAddrE ns0.address with
        | .error e => .error e
        | .ok addrs => .ok ({ i0 with nameservers := addrs } :: restI)
      | l, _ => .ok l

/- ### Spec-side characterization definitions -/

/-- Spec-side identifier choice for `sd_network_unit_name`: precedence
name over MAC address over path. -/
def specIdentifier (i : Interface) : Option String :=
  match i.name with
  | some n => some n
  | none =>
    match i.mac_address with
    | some m => some (macToString m)
    | none => i.path

/-- Spec-side `[Match]` section: header, then Name, MACAddress, Path, each
only if present. -/
def cfgMatchSection (i : Interface) : String :=
  "[Match]\n"
  ++ (i.name.elim "" (fun n => "Name=" ++ n ++ "\n"))
  ++ ((i.mac_address.map macToString).elim "" (fun m => "MACAddress=" ++ m ++ "\n"))
  ++ (i.path.elim "" (fun p => "Path=" ++ p ++ "\n"))

/-- Spec-side `[Network]` section: blank line, header, DHCP mapping, one
DNS line per nameserver in order, then Bond if present. -/
def cfgNetworkSection (i : Interface) : String :=
  "\n[Network]\n"
  ++ ((i.dhcp.map DhcpSetting.sd_dhcp_setting).elim "" (fun d => "DHCP=" ++ d ++ "\n"))
  ++ dnsLines i.nameservers
  ++ (i.bond.elim "" (fun b => "Bond=" ++ b ++ "\n"))

/-- Spec-side `[Link]` section: present only if unmanaged or a
required-for-online override is set. -/
def cfgLinkSection (i : Interface) : String :=
  if i.unmanaged || i.required_for_online.isSome then
    "\n[Link]\n"
    ++ (if i.unmanaged then "Unmanaged=yes\n" else "")
    ++ (i.required_for_online.elim "" (fun o => "RequiredForOnline=" ++ o ++ "\n"))
  else ""

/-- Spec-side rendering of an interface config: Match, Network, optional
Link, then the per-address and per-route blocks. -/
def configSpec (i : Interface) : String :=
  cfgMatchSection i ++ cfgNetworkSection i ++ cfgLinkSection i
    ++ addrBlocks i.ip_addresses ++ routeBlocks i.routes

/-- The all-absent minimal interface of the golden fixture. -/
def minimalIface : Interface :=
  { name := none, mac_address := none, path := none, priority := 10,
    nameservers := [], ip_addresses := [], dhcp := none, routes := [],
    bond := none, unmanaged := false, required_for_online := none }

/-- Spec-side description of the synthesized-bond list: one `(mac, tag)`
pair per first occurrence of each bond tag, in input order, skipping tags
already seen. -/
def distinctBondsFrom : List String → List PacketInterfaceInfo → List (MacAddr × String)
  | _, [] => []
  | seen, i :: rest =>
    match i.bond, parseMacAddr i.mac with
    | some n, some mac =>
      if n ∈ seen then distinctBondsFrom seen rest
      else (mac, n) :: distinctBondsFrom (seen ++ [n]) rest
    | _, _ => distinctBondsFrom seen rest

/-- Spec-side route-destination heuristic: private IPv4 to `10.0.0.0/8`,
public IPv4 to `0.0.0.0/0`, any IPv6 to `::/0`. -/
def claimDest (a : PacketAddressInfo) : IpNetwork :=
  match a.address with
  | .v4 _ => if a.public then IpNetwork.v4 ⟨0, 0, 0, 0⟩ 0 else IpNetwork.v4 ⟨10, 0, 0, 0⟩ 8
  | .v6 _ => IpNetwork.v6 ⟨0, 0, 0, 0, 0, 0, 0, 0⟩ 0

/-- The bond netdev built in the final loop of `parse_network` for one
`(mac, bond)` pair. -/
def mkNetDevOf (attrs : List (String × String)) (p : MacAddr × Interface) : VirtualNetDev :=
  { name := p.2.name.getD "", kind := .Bond, mac_address := p.1, priority := some 5,
    sd_netdev_sections := [{ name := "Bond", attributes := attrs }] }

/- ### Concrete fixtures used by the witnesses -/

def macW1 : MacAddr := ⟨0, 0, 0, 0, 0, 1⟩

def dnsW : List IpAddr := [IpAddr.v4 ⟨8, 8, 8, 8⟩]

def pifW : PacketInterfaceInfo := ⟨"eth0", "00:00:00:00:00:01", some "bond0"⟩

def addrW : PacketAddressInfo :=
  ⟨"a1", 4, false, false, IpAddr.v4 ⟨10, 1, 2, 3⟩, IpAddr.v4 ⟨255, 0, 0, 0⟩,
   IpAddr.v4 ⟨10, 0, 0, 1⟩⟩

def niW : PacketNetworkInfo := ⟨[pifW], [addrW], ⟨1⟩⟩

def b0W : Interface :=
  { mkBondIface dnsW "bond0" with
    ip_addresses := [IpNetwork.v4 ⟨10, 1, 2, 3⟩ 8]
    routes := [{ destination := IpNetwork.v4 ⟨10, 0, 0, 0⟩ 8,
                 gateway := IpAddr.v4 ⟨10, 0, 0, 1⟩ }] }

def attrsW : List (String × String) :=
  [("TransmitHashPolicy", "layer3+4"), ("MIIMonitorSec", ".1"),
   ("UpDelaySec", ".2"), ("DownDelaySec", ".2"), ("Mode", "active-backup")]

def devW : VirtualNetDev :=
  { name := "bond0", kind := .Bond, mac_address := macW1, priority := some 5,
    sd_netdev_sections := [{ name := "Bond", attributes := attrsW }] }

def ifacesW : List Interface := [mkPhysIface pifW macW1, b0W, fallbackIface]

def devsW : List VirtualNetDev := [devW]

def entryPhysW : NetCfgEntry := ⟨"physical", some "eth0", none, [], [], []⟩

def entryNsW : NetCfgEntry := ⟨"nameserver", none, none, ["8.8.8.8"], [], []⟩

def ifaceW7 : Interface :=
  { baseProxIface entryPhysW with nameservers := [IpAddr.v4 ⟨8, 8, 8, 8⟩] }

def subnetW6 : SubnetCfg := ⟨"static", some "10.0.0.5/24", none, some "10.0.0.1"⟩

def ifaceW6 : Interface := baseProxIface entryPhysW

def resW6 : Interface × List String :=
  ({ ifaceW6 with
     ip_addresses := [IpNetwork.v4 ⟨10, 0, 0, 5⟩ 24]
     routes := [{ destination := IpNetwork.v4 ⟨0, 0, 0, 0⟩ 0,
                  gateway := IpAddr.v4 ⟨10, 0, 0, 1⟩ }] }, [])

/-- The first synthesized bond after the address loop: all supplied
addresses and their derived routes appended, in input order. -/
def attachedBond (b : Interface) (as : List PacketAddressInfo) (nets : List IpNetwork) :
    Interface :=
  { b with
    ip_addresses := b.ip_addresses ++ nets
    routes := b.routes ++
      as.map (fun a => { destination := addrRouteDest a, gateway := a.gateway }) }

def ifaceC4W : Interface :=
  { name := none, mac_address := some ⟨0, 0, 0, 0, 0, 0⟩, path := none, priority := 150,
    nameservers := [], ip_addresses := [], dhcp := none, routes := [], bond := none,
    unmanaged := false, required_for_online := none }

/- ### String append helper lemmas -/

@[simp]
theorem strAssoc (a b c : String) : a ++ b ++ c = a ++ (b ++ c) := by
  apply String.ext
  simp [String.data_append, List.append_assoc]

@[simp]
theorem strAppendNil (s : String) : s ++ "" = s := by
  apply String.ext
  simp [String.data_append]

@[simp]
theorem strNilAppend (s : String) : "" ++ s = s := by
  apply String.ext
  simp [String.data_append]

/-- C4: `sd_network_unit_name` succeeds exactly when one of name, MAC
address or path is present, picks the identifier with precedence name over
MAC over path, renders `{priority:02}-{identifier}.network`, and renders a
priority of 100 or more in full; with all three identifiers absent it fails
with the missing-identifier error. -/
theorem claim_C4 (i : Interface) :
    (((i.sd_network_unit_name).isOk = true) ↔
      (i.name.isSome = true ∨ i.mac_address.isSome = true ∨ i.path.isSome = true)) ∧
    (∀ id, specIdentifier i = some id →
      i.sd_network_unit_name = .ok (pad2 i.priority ++ "-" ++ id ++ ".network")) ∧
    (specIdentifier i = none → i.sd_network_unit_name = .error .missingIdentifier) ∧
    (100 ≤ i.priority → pad2 i.priority = toString i.priority) := by
  obtain ⟨nm, mc, pa, pr, ns, ip, dh, rt, bd, um, ro⟩ := i
  refine ⟨?_, ?_, ?_, ?_⟩
  · cases nm <;> cases mc <;> cases pa <;>
      simp [Interface.sd_network_unit_name, Except.isOk, Except.toBool]
  · intro id h
    cases nm <;> cases mc <;> cases pa <;>
      simp_all [Interface.sd_network_unit_name, specIdentifier]
  · intro h
    cases nm <;> cases mc <;> cases pa <;>
      simp_all [Interface.sd_network_unit_name, specIdentifier]
  · intro h
    have h2 : 100 ≤ pr := h
    have hlt : ¬ pr < 10 := by omega
    simp [pad2, hlt]

/-- Witness for C4 at a concrete interface: no name, a zero MAC address and
priority 150; the identifier is the MAC string and the priority is rendered
untruncated. -/
theorem claim_C4_witness :
    specIdentifier ifaceC4W = some "00:00:00:00:00:00" ∧
    Interface.sd_network_unit_name ifaceC4W = .ok "150-00:00:00:00:00:00.network" :=
  ⟨rfl, (claim_C4 ifaceC4W).2.1 "00:00:00:00:00:00" rfl⟩

/-- C5: `config` renders sections in the fixed order Match, blank line,
Network (DHCP mapping, DNS lines in order, Bond), a Link section only when
unmanaged or required-for-online is set, then the blank-line-preceded
Address and Route blocks; the all-absent minimal interface renders to
exactly the golden text. -/
theorem claim_C5 :
    (∀ i : Interface, i.config = configSpec i) ∧
    Interface.config minimalIface = "[Match]\n\n[Network]\n" := by
  constructor
  · intro i
    obtain ⟨nm, mc, pa, pr, ns, ip, dh, rt, bd, um, ro⟩ := i
    cases nm <;> cases mc <;> cases pa <;> cases dh <;> cases bd <;> cases um <;> cases ro <;>
      simp [-String.reduceAppend, Interface.config, configSpec, cfgMatchSection,
            cfgNetworkSection, cfgLinkSection, Option.elim, Option.map]
  · rfl

/-- C8: `bonding_mode_to_string` is exactly the seven-entry table and fails
with the unknown-bonding-mode error on every other input, and the shared
bond attribute list is the fixed five attributes with the extra
LACPTransmitRate entry exactly when the mode is 4. -/
theorem claim_C8 :
    (∀ m : Nat, 7 ≤ m → bonding_mode_to_string m = .error (.unknownBondingMode m)) ∧
    (bonding_mode_to_string 0 = .ok "balance-rr" ∧
     bonding_mode_to_string 1 = .ok "active-backup" ∧
     bonding_mode_to_string 2 = .ok "balance-xor" ∧
     bonding_mode_to_string 3 = .ok "broadcast" ∧
     bonding_mode_to_string 4 = .ok "802.3ad" ∧
     bonding_mode_to_string 5 = .ok "balance-tlb" ∧
     bonding_mode_to_string 6 = .ok "balance-alb") ∧
    (∀ m s, bonding_mode_to_string m = .ok s →
      mkBondAttrs m = .ok
        ([("TransmitHashPolicy", "layer3+4"), ("MIIMonitorSec", ".1"), ("UpDelaySec", ".2"),
          ("DownDelaySec", ".2"), ("Mode", s)] ++
          (if m == 4 then [("LACPTransmitRate", "fast")] else []))) := by
  refine ⟨?_, ⟨rfl, rfl, rfl, rfl, rfl, rfl, rfl⟩, ?_⟩
  · intro m hm
    obtain ⟨k, rfl⟩ : ∃ k, m = k + 7 := ⟨m - 7, by omega⟩
    simp [bonding_mode_to_string, BONDING_MODES, List.find?]
  · intro m s h
    simp only [mkBondAttrs, h]
    by_cases h4 : m = 4 <;> simp [h4]

/-- Witness for C8: mode 7 is rejected, and mode 4 yields the attribute set
with the LACP entry. -/
theorem claim_C8_witness :
    bonding_mode_to_string 7 = .error (.unknownBondingMode 7) ∧
    mkBondAttrs 4 = .ok
      [("TransmitHashPolicy", "layer3+4"), ("MIIMonitorSec", ".1"), ("UpDelaySec", ".2"),
       ("DownDelaySec", ".2"), ("Mode", "802.3ad"), ("LACPTransmitRate", "fast")] :=
  ⟨claim_C8.1 7 (by decide), claim_C8.2.2 4 "802.3ad" rfl⟩

/-- C9: both adapters are deterministic over already-resolved inputs: two
invocations on the same metadata (and, for the bare-metal adapter, the same
externally resolved DNS list) produce structurally equal results.  In this
embedding both adapters are pure functions, so equality of the two runs is
definitional. -/
theorem claim_C9 :
    ∀ (dns : List IpAddr) (ni : PacketNetworkInfo) (cfg : List NetCfgEntry),
      parse_network dns ni = parse_network dns ni ∧ networks cfg = networks cfg :=
  fun _ _ _ => ⟨rfl, rfl⟩

/- ### Structural lemmas about the bare-metal adapter -/

theorem mkBondIface_inj (dns : List IpAddr) (n1 n2 : String) :
    mkBondIface dns n1 = mkBondIface dns n2 ↔ n1 = n2 := by
  constructor
  · intro h
    have h2 := congrArg Interface.name h
    simpa [mkBondIface] using h2
  · intro h
    rw [h]

theorem phase1_any_mem (dns : List IpAddr) (B : List (MacAddr × Interface)) (n : String)
    (hB : ∀ p ∈ B, ∃ m, p.2 = mkBondIface dns m) :
    (B.any (fun p => decide (mkBondIface dns n = p.2)) = true) ↔
      n ∈ B.filterMap (fun p => p.2.name) := by
  simp only [List.any_eq_true, decide_eq_true_eq, List.mem_filterMap]
  constructor
  · rintro ⟨p, hp, he⟩
    refine ⟨p, hp, ?_⟩
    rw [← he]
    rfl
  · rintro ⟨p, hp, he⟩
    obtain ⟨m, hm⟩ := hB p hp
    refine ⟨p, hp, ?_⟩
    rw [hm] at he ⊢
    have hmn : m = n := by simpa [mkBondIface] using he
    rw [hmn]

theorem phase1_bonds (dns : List IpAddr) (l : List PacketInterfaceInfo) :
    ∀ (A : List Interface) (B : List (MacAddr × Interface)) ifs bonds,
      phase1 dns l A B = .ok (ifs, bonds) →
      (∀ p ∈ B, ∃ m, p.2 = mkBondIface dns m) →
      bonds = B ++ (distinctBondsFrom (B.filterMap (fun p => p.2.name)) l).map
        (fun q => (q.1, mkBondIface dns q.2)) := by
  induction l with
  | nil =>
    intro A B ifs bonds h hB
    simp only [phase1, Except.ok.injEq, Prod.mk.injEq] at h
    simp [distinctBondsFrom, ← h.2]
  | cons i rest ih =>
    intro A B ifs bonds h hB
    simp only [phase1] at h
    cases hmac : parseMacAddr i.mac with
    | none =>
      rw [hmac] at h
      simp at h
    | some mac =>
      rw [hmac] at h
      cases hb : i.bond with
      | none =>
        rw [hb] at h
        have hrec := ih _ _ _ _ h hB
        rw [hrec]
        simp [distinctBondsFrom, hb, hmac]
      | some bn =>
        rw [hb] at h
        dsimp only at h
        cases hany : B.any (fun p => decide (mkBondIface dns bn = p.2)) with
        | false =>
          rw [hany] at h
          simp only [Bool.false_eq_true, if_false] at h
          have hB2 : ∀ p ∈ B ++ [(mac, mkBondIface dns bn)], ∃ m, p.2 = mkBondIface dns m := by
            intro p hp
            rcases List.mem_append.mp hp with hp1 | hp2
            · exact hB p hp1
            · simp at hp2
              exact ⟨bn, by rw [hp2]⟩
          have hrec := ih _ _ _ _ h hB2
          have hnames : (B ++ [(mac, mkBondIface dns bn)]).filterMap (fun p => p.2.name) =
              B.filterMap (fun p => p.2.name) ++ [bn] := by
            simp [List.filterMap_append, mkBondIface]
          rw [hnames] at hrec
          have hnotmem : ¬ bn ∈ B.filterMap (fun p => p.2.name) := by
            intro hmem
            have := (phase1_any_mem dns B bn hB).mpr hmem
            rw [hany] at this
            exact absurd this (by simp)
          rw [hrec]
          simp only [distinctBondsFrom, hb, hmac, hnotmem, if_neg, if_false]
          simp [List.append_assoc]
        | true =>
          rw [hany] at h
          simp only [if_true] at h
          have hrec := ih _ _ _ _ h hB
          have hmem : bn ∈ B.filterMap (fun p => p.2.name) :=
            (phase1_any_mem dns B bn hB).mp hany
          rw [hrec]
          simp [distinctBondsFrom, hb, hmac, hmem]

theorem phase1_ifaces (dns : List IpAddr) (l : List PacketInterfaceInfo) :
    ∀ (A : List Interface) (B : List (MacAddr × Interface)) ifs bonds,
      phase1 dns l A B = .ok (ifs, bonds) →
      ∃ phys, ifs = A ++ phys ∧ phys.length = l.length ∧
        (∀ x ∈ phys, ∃ i mac, i ∈ l ∧ parseMacAddr i.mac = some mac ∧ x = mkPhysIface i mac) ∧
        (∀ i ∈ l, (parseMacAddr i.mac).isSome = true) := by
  induction l with
  | nil =>
    intro A B ifs bonds h
    simp only [phase1, Except.ok.injEq, Prod.mk.injEq] at h
    exact ⟨[], by simp [← h.1], rfl, by simp, by simp⟩
  | cons i rest ih =>
    intro A B ifs bonds h
    simp only [phase1] at h
    cases hmac : parseMacAddr i.mac with
    | none =>
      rw [hmac] at h
      simp at h
    | some mac =>
      rw [hmac] at h
      dsimp only at h
      have hkey : ∃ B2, phase1 dns rest (A ++ [mkPhysIface i mac]) B2 = .ok (ifs, bonds) := by
        cases hb : i.bond with
        | none => rw [hb] at h; exact ⟨B, h⟩
        | some bn =>
          rw [hb] at h
          dsimp only at h
          exact ⟨_, h⟩
      obtain ⟨B2, h2⟩ := hkey
      obtain ⟨phys, hifs, hlen, hmem, hmacs⟩ := ih _ _ _ _ h2
      refine ⟨mkPhysIface i mac :: phys, ?_, ?_, ?_, ?_⟩
      · rw [hifs]
        simp
      · simp [hlen]
      · intro x hx
        rcases List.mem_cons.mp hx with hx1 | hx2
        · exact ⟨i, mac, by simp, hmac, hx1⟩
        · obtain ⟨j, mj, hjl, hjm, hje⟩ := hmem x hx2
          exact ⟨j, mj, by simp [hjl], hjm, hje⟩
      · intro j hj
        rcases List.mem_cons.mp hj with hj1 | hj2
        · rw [hj1, hmac]
          rfl
        · exact hmacs j hj2

theorem attachAddrs_ok (as : List PacketAddressInfo) :
    ∀ (b b' : Interface), attachAddrs as b = .ok b' →
      ∃ nets, mapE addrNet as = .ok nets ∧
        b' = { b with
               ip_addresses := b.ip_addresses ++ nets
               routes := b.routes ++
                 as.map (fun a => { destination := addrRouteDest a, gateway := a.gateway }) } := by
  induction as with
  | nil =>
    intro b b' h
    simp only [attachAddrs, Except.ok.injEq] at h
    exact ⟨[], rfl, by simp [← h]⟩
  | cons a rest ih =>
    intro b b' h
    simp only [attachAddrs] at h
    cases haddr : addrNet a with
    | error e =>
      rw [haddr] at h
      simp at h
    | ok net =>
      rw [haddr] at h
      dsimp only at h
      obtain ⟨nets, hmap, hb'⟩ := ih _ _ h
      refine ⟨net :: nets, ?_, ?_⟩
      · simp only [mapE, haddr, hmap]
      · rw [hb']
        simp [List.append_assoc]

theorem phase4_ok (attrs : List (String × String)) (l : List (MacAddr × Interface)) :
    ∀ (A : List Interface) (D : List VirtualNetDev),
      (∀ p ∈ l, (p.2).name.isSome = true) →
      phase4 attrs l A D = .ok (A ++ l.map (fun p => p.2), D ++ l.map (mkNetDevOf attrs)) := by
  induction l with
  | nil =>
    intro A D _
    simp [phase4]
  | cons p rest ih =>
    intro A D hl
    obtain ⟨mac, bond⟩ := p
    have hs : bond.name.isSome = true := hl (mac, bond) (by simp)
    obtain ⟨nm, hnm⟩ := Option.isSome_iff_exists.mp hs
    simp only [phase4, hnm]
    have hrec := ih (A ++ [bond])
      (D ++ [{ name := nm, kind := .Bond, mac_address := mac, priority := some 5,
               sd_netdev_sections := [{ name := "Bond", attributes := attrs }] }])
      (fun q hq => hl q (by simp [hq]))
    rw [hrec]
    simp [mkNetDevOf, hnm, List.append_assoc]

theorem parse_network_shape (dns : List IpAddr) (ni : PacketNetworkInfo)
    (ifaces : List Interface) (devs : List VirtualNetDev)
    (h : parse_network dns ni = .ok (ifaces, devs)) :
    ∃ phys bonds,
      phase1 dns ni.interfaces [] [] = .ok (phys, bonds) ∧
      bonds = (distinctBondsFrom [] ni.interfaces).map (fun q => (q.1, mkBondIface dns q.2)) ∧
      phys.length = ni.interfaces.length ∧
      (∀ x ∈ phys, ∃ i mac, i ∈ ni.interfaces ∧ parseMacAddr i.mac = some mac ∧
        x = mkPhysIface i mac) ∧
      (∀ i ∈ ni.interfaces, (parseMacAddr i.mac).isSome = true) ∧
      (bonds = [] → ifaces = phys ∧ devs = []) ∧
      (∀ m0 b0 rest, bonds = (m0, b0) :: rest →
        ∃ nets attrs,
          mapE addrNet ni.addresses = .ok nets ∧
          mkBondAttrs ni.bonding.mode = .ok attrs ∧
          ifaces = (phys ++ (attachedBond b0 ni.addresses nets :: rest.map (fun p => p.2)))
            ++ [fallbackIface] ∧
          devs = ((m0, attachedBond b0 ni.addresses nets) :: rest).map (mkNetDevOf attrs)) := by
  unfold parse_network at h
  cases hp : phase1 dns ni.interfaces [] [] with
  | error e =>
    rw [hp] at h
    simp at h
  | ok pr =>
    obtain ⟨phys, bonds⟩ := pr
    rw [hp] at h
    dsimp only at h
    have hB := phase1_bonds dns ni.interfaces [] [] phys bonds hp (by simp)
    simp only [List.filterMap_nil, List.nil_append] at hB
    obtain ⟨physL, hifs0, hlen, hmem, hmacs⟩ := phase1_ifaces dns ni.interfaces [] [] phys bonds hp
    simp only [List.nil_append] at hifs0
    subst hifs0
    have hnames : ∀ p ∈ bonds, (p.2).name.isSome = true := by
      rw [hB]
      intro p hp2
      simp only [List.mem_map] at hp2
      obtain ⟨q, _, rfl⟩ := hp2
      rfl
    refine ⟨phys, bonds, rfl, hB, hlen, hmem, hmacs, ?_, ?_⟩
    · intro hbnil
      rw [hbnil] at h
      dsimp only at h
      simp only [Except.ok.injEq, Prod.mk.injEq] at h
      exact ⟨h.1.symm, h.2.symm⟩
    · intro m0 b0 rest hbcons
      rw [hbcons] at h
      dsimp only at h
      cases hat : attachAddrs ni.addresses b0 with
      | error e =>
        rw [hat] at h
        simp at h
      | ok b0' =>
        rw [hat] at h
        dsimp only at h
        cases hA : mkBondAttrs ni.bonding.mode with
        | error e =>
          rw [hA] at h
          simp at h
        | ok attrs =>
          rw [hA] at h
          dsimp only at h
          obtain ⟨nets, hmap, hb'⟩ := attachAddrs_ok ni.addresses b0 b0' hat
          have hb'2 : b0' = attachedBond b0 ni.addresses nets := hb'
          have hpre : ∀ p ∈ (m0, b0') :: rest, (p.2).name.isSome = true := by
            intro p hp2
            rcases List.mem_cons.mp hp2 with hp3 | hp4
            · rw [hp3]
              have hb0 : ((m0, b0) : MacAddr × Interface).2.name.isSome = true :=
                hnames (m0, b0) (by rw [hbcons]; exact List.mem_cons_self _ _)
              rw [hb'2]
              exact hb0
            · exact hnames p (by rw [hbcons]; exact List.mem_cons_of_mem _ hp4)
          rw [phase4_ok attrs ((m0, b0') :: rest) phys [] hpre] at h
          dsimp only at h
          simp only [Except.ok.injEq, Prod.mk.injEq] at h
          refine ⟨nets, attrs, hmap, rfl, ?_, ?_⟩
          · rw [← h.1, hb'2]
            simp
          · rw [← h.2, hb'2]
            simp

theorem mapCons {α β : Type} (f : α → β) (l : List α) (y : β) (ys : List β)
    (h : l.map f = y :: ys) :
    ∃ q qrest, l = q :: qrest ∧ f q = y ∧ qrest.map f = ys := by
  cases l with
  | nil => simp at h
  | cons a l2 =>
    simp only [List.map_cons, List.cons.injEq] at h
    exact ⟨a, l2, rfl, h.1, h.2⟩

theorem addrRouteDest_eq_claimDest (a : PacketAddressInfo) :
    addrRouteDest a = claimDest a := by
  obtain ⟨id, fam, pub, mgmt, addr, mask, gw⟩ := a
  cases pub <;> cases addr <;> rfl

theorem restElemBond (dns : List IpAddr) (qrest : List (MacAddr × String))
    (p : MacAddr × Interface)
    (hp : p ∈ qrest.map (fun q => (q.1, mkBondIface dns q.2))) :
    ∃ n, p.2 = mkBondIface dns n := by
  simp only [List.mem_map] at hp
  obtain ⟨q, _, rfl⟩ := hp
  exact ⟨q.2, rfl⟩

theorem distinctBonds_find (l : List PacketInterfaceInfo) :
    ∀ (seen : List String) (mac : MacAddr) (tag : String),
      (mac, tag) ∈ distinctBondsFrom seen l →
      (∀ i ∈ l, (parseMacAddr i.mac).isSome = true) →
      tag ∉ seen ∧ ∃ i, l.find? (fun j => j.bond == some tag) = some i ∧
        parseMacAddr i.mac = some mac := by
  induction l with
  | nil =>
    intro seen mac tag hmem _
    simp [distinctBondsFrom] at hmem
  | cons i rest ih =>
    intro seen mac tag hmem hmacs
    cases hb : i.bond with
    | none =>
      simp only [distinctBondsFrom, hb] at hmem
      obtain ⟨hnot, j, hfind, hjm⟩ := ih seen mac tag hmem (fun j hj => hmacs j (by simp [hj]))
      refine ⟨hnot, j, ?_, hjm⟩
      rw [List.find?_cons]
      have hc : (i.bond == some tag) = false := by simp [hb]
      rw [hc, hfind]
    | some n =>
      cases hm : parseMacAddr i.mac with
      | none =>
        have hi := hmacs i (by simp)
        rw [hm] at hi
        simp at hi
      | some mi =>
        simp only [distinctBondsFrom, hb, hm] at hmem
        by_cases hseen : n ∈ seen
        · rw [if_pos hseen] at hmem
          obtain ⟨hnot, j, hfind, hjm⟩ := ih seen mac tag hmem
            (fun j hj => hmacs j (by simp [hj]))
          refine ⟨hnot, j, ?_, hjm⟩
          have hne : n ≠ tag := fun he => hnot (he ▸ hseen)
          rw [List.find?_cons]
          have hc : (i.bond == some tag) = false := by simp [hb, hne]
          rw [hc, hfind]
        · rw [if_neg hseen] at hmem
          rcases List.mem_cons.mp hmem with he | hmem2
          · simp only [Prod.mk.injEq] at he
            obtain ⟨hmac, htag⟩ := he
            subst hmac
            subst htag
            refine ⟨hseen, i, ?_, hm⟩
            rw [List.find?_cons]
            have hc : (i.bond == some tag) = true := by simp [hb]
            rw [hc]
          · obtain ⟨hnot, j, hfind, hjm⟩ := ih (seen ++ [n]) mac tag hmem2
              (fun j hj => hmacs j (by simp [hj]))
            have htagn : tag ≠ n := by
              intro he
              exact hnot (by simp [he])
            have htagseen : tag ∉ seen := fun hs => hnot (by simp [hs])
            refine ⟨htagseen, j, ?_, hjm⟩
            rw [List.find?_cons]
            have hc : (i.bond == some tag) = false := by
              simp [hb]
              exact fun he => htagn he.symm
            rw [hc, hfind]

/-- C1 counterexample: on an input whose only physical descriptor carries no
bond tag, `parse_network` succeeds and returns only that physical interface,
whose `path` is `none` — so the returned list does not end with the
`pci-*`/priority-80 unmanaged fallback the claim asserts for every
successful return. -/
theorem claim_C1_counterexample :
    (parse_network [IpAddr.v4 ⟨8, 8, 8, 8⟩]
        { interfaces := [⟨"eth0", "00:00:00:00:00:01", none⟩], addresses := [],
          bonding := ⟨0⟩ }).map (fun p => p.1.map (fun x => x.path)) = .ok [none] := rfl

/-- C1 amended: the trailing unmanaged `pci-*` fallback (priority 80) is
appended, exactly once and last, precisely when at least one bond was
synthesized; on the degraded zero-bond path the function returns only the
physical interfaces (whose `path` is `none`) and no fallback is appended. -/
theorem claim_C1_amended (dns : List IpAddr) (ni : PacketNetworkInfo)
    (ifaces : List Interface) (devs : List VirtualNetDev)
    (h : parse_network dns ni = .ok (ifaces, devs)) :
    (devs = [] → ∀ x ∈ ifaces, x.path = none) ∧
    (devs ≠ [] → ifaces.getLast? = some fallbackIface ∧
      (ifaces.filter (fun x => x.path == some "pci-*")).length = 1) := by
  obtain ⟨phys, bonds, hp, hB, hlen, hmem, hmacs, hnil, hcons⟩ :=
    parse_network_shape dns ni ifaces devs h
  constructor
  · intro hdev
    cases hbonds : bonds with
    | nil =>
      obtain ⟨hif, _⟩ := hnil hbonds
      rw [hif]
      intro x hx
      obtain ⟨i, mac, _, _, hxe⟩ := hmem x hx
      rw [hxe]
      rfl
    | cons p rest =>
      obtain ⟨m0, b0⟩ := p
      obtain ⟨nets, attrs, _, _, _, hdevs⟩ := hcons m0 b0 rest hbonds
      rw [hdevs] at hdev
      simp at hdev
  · intro hdev
    cases hbonds : bonds with
    | nil =>
      obtain ⟨_, hdevnil⟩ := hnil hbonds
      exact absurd hdevnil hdev
    | cons p rest =>
      obtain ⟨m0, b0⟩ := p
      obtain ⟨nets, attrs, _, _, hif, _⟩ := hcons m0 b0 rest hbonds
      rw [hB] at hbonds
      obtain ⟨q, qrest, hd, hfq, hqrest⟩ := mapCons _ _ _ _ hbonds
      simp only [Prod.mk.injEq] at hfq
      obtain ⟨hm0, hb0⟩ := hfq
      subst hqrest
      subst hb0
      subst hm0
      constructor
      · rw [hif]
        exact List.getLast?_concat _
      · rw [hif, List.filter_append, List.filter_append]
        have hA : phys.filter (fun x => x.path == some "pci-*") = [] := by
          rw [List.filter_eq_nil_iff]
          intro x hx
          obtain ⟨i, mac, _, _, hxe⟩ := hmem x hx
          rw [hxe]
          simp [mkPhysIface]
        have hC : (attachedBond (mkBondIface dns q.2) ni.addresses nets ::
            ((qrest.map (fun q2 => (q2.1, mkBondIface dns q2.2))).map (fun p => p.2))).filter
            (fun x => x.path == some "pci-*") = [] := by
          rw [List.filter_eq_nil_iff]
          intro x hx
          rcases List.mem_cons.mp hx with hx1 | hx2
          · rw [hx1]
            simp [attachedBond, mkBondIface]
          · simp only [List.map_map, List.mem_map] at hx2
            obtain ⟨pp, _, rfl⟩ := hx2
            simp [mkBondIface]
        rw [hA, hC]
        rfl

/-- Witness for the amended C1 at a concrete one-bond input: one bond was
synthesized, so the interface list ends with exactly one fallback. -/
theorem claim_C1_witness :
    parse_network dnsW niW = .ok (ifacesW, devsW) ∧
    ((devsW = [] → ∀ x ∈ ifacesW, x.path = none) ∧
     (devsW ≠ [] → ifacesW.getLast? = some fallbackIface ∧
       (ifacesW.filter (fun x => x.path == some "pci-*")).length = 1)) :=
  ⟨rfl, claim_C1_amended dnsW niW ifacesW devsW rfl⟩

/-- C2 counterexample: two physical descriptors tagged with the different
bond names `bond0` and `bond1` (all other candidate fields identical, the
DNS list being fixed) yield two synthesized bond entries, not one — the
candidates do not collapse. -/
theorem claim_C2_counterexample :
    (parse_network []
        { interfaces := [⟨"eth0", "00:00:00:00:00:01", some "bond0"⟩,
                         ⟨"eth1", "00:00:00:00:00:02", some "bond1"⟩],
          addresses := [], bonding := ⟨0⟩ }).map (fun p => p.2.length) = .ok 2 := rfl

/-- C2 amended: a candidate synthesized bond is added only when no previous
synthesized bond is structurally equal to it; since structural equality of
candidates includes the `name` field (all other candidate fields are fixed,
so candidate equality is exactly bond-tag equality), the synthesized bond
entries are in bijection with the distinct bond tags in first-occurrence
order: same-tag duplicates collapse, different-tag candidates never do. -/
theorem claim_C2_amended (dns : List IpAddr) (ni : PacketNetworkInfo)
    (ifaces : List Interface) (devs : List VirtualNetDev)
    (h : parse_network dns ni = .ok (ifaces, devs)) :
    devs.map (fun d => d.name) = (distinctBondsFrom [] ni.interfaces).map (fun q => q.2) ∧
    (∀ n1 n2, mkBondIface dns n1 = mkBondIface dns n2 ↔ n1 = n2) := by
  refine ⟨?_, fun n1 n2 => mkBondIface_inj dns n1 n2⟩
  obtain ⟨phys, bonds, hp, hB, hlen, hmem, hmacs, hnil, hcons⟩ :=
    parse_network_shape dns ni ifaces devs h
  cases hbonds : bonds with
  | nil =>
    obtain ⟨_, hdevs⟩ := hnil hbonds
    rw [hB] at hbonds
    cases hd : distinctBondsFrom [] ni.interfaces with
    | nil =>
      rw [hdevs]
      rfl
    | cons qq qqrest =>
      rw [hd] at hbonds
      simp at hbonds
  | cons p rest =>
    obtain ⟨m0, b0⟩ := p
    obtain ⟨nets, attrs, _, _, _, hdevs⟩ := hcons m0 b0 rest hbonds
    rw [hB] at hbonds
    obtain ⟨q, qrest, hd, hfq, hqrest⟩ := mapCons _ _ _ _ hbonds
    simp only [Prod.mk.injEq] at hfq
    obtain ⟨hm0, hb0⟩ := hfq
    subst hqrest
    subst hb0
    subst hm0
    rw [hdevs, hd]
    simp only [List.map_cons, List.map_map, List.cons.injEq]
    constructor
    · simp [mkNetDevOf, attachedBond, mkBondIface]
    · apply List.map_congr_left
      intro q2 _
      simp [mkNetDevOf, mkBondIface, Function.comp]

/-- Witness for the amended C2 at the concrete one-bond input. -/
theorem claim_C2_witness :
    parse_network dnsW niW = .ok (ifacesW, devsW) ∧
    devsW.map (fun d => d.name) = (distinctBondsFrom [] niW.interfaces).map (fun q => q.2) ∧
    (∀ n1 n2, mkBondIface dnsW n1 = mkBondIface dnsW n2 ↔ n1 = n2) :=
  ⟨rfl, claim_C2_amended dnsW niW ifacesW devsW rfl⟩

/-- C3: when at least one bond is synthesized, all supplied addresses are
attached, in input order, to the first synthesized bond only (the interface
right after the physical ones), each address contributing exactly one route
on that bond with the address's gateway and the fixed destination heuristic
(private IPv4 to 10.0.0.0/8, public IPv4 to 0.0.0.0/0, any IPv6 to ::/0);
no other returned interface carries any address or route. -/
theorem claim_C3 (dns : List IpAddr) (ni : PacketNetworkInfo)
    (ifaces : List Interface) (devs : List VirtualNetDev)
    (h : parse_network dns ni = .ok (ifaces, devs)) (hdev : devs ≠ []) :
    ∃ phys b0 restB nets tag0,
      ifaces = (phys ++ (b0 :: restB)) ++ [fallbackIface] ∧
      phys.length = ni.interfaces.length ∧
      mapE addrNet ni.addresses = .ok nets ∧
      b0 = { mkBondIface dns tag0 with
             ip_addresses := nets
             routes := ni.addresses.map
               (fun a => { destination := claimDest a, gateway := a.gateway }) } ∧
      (∀ x ∈ phys, x.ip_addresses = [] ∧ x.routes = []) ∧
      (∀ x ∈ restB, x.ip_addresses = [] ∧ x.routes = []) ∧
      fallbackIface.ip_addresses = [] ∧ fallbackIface.routes = [] := by
  obtain ⟨phys, bonds, hp, hB, hlen, hmem, hmacs, hnil, hcons⟩ :=
    parse_network_shape dns ni ifaces devs h
  cases hbonds : bonds with
  | nil =>
    obtain ⟨_, hdevnil⟩ := hnil hbonds
    exact absurd hdevnil hdev
  | cons p rest =>
    obtain ⟨m0, b0⟩ := p
    obtain ⟨nets, attrs, hmap, _, hif, _⟩ := hcons m0 b0 rest hbonds
    rw [hB] at hbonds
    obtain ⟨q, qrest, hd, hfq, hqrest⟩ := mapCons _ _ _ _ hbonds
    simp only [Prod.mk.injEq] at hfq
    obtain ⟨hm0, hb0⟩ := hfq
    subst hqrest
    subst hb0
    subst hm0
    refine ⟨phys, attachedBond (mkBondIface dns q.2) ni.addresses nets,
      (qrest.map (fun q2 => (q2.1, mkBondIface dns q2.2))).map (fun p => p.2),
      nets, q.2, hif, hlen, hmap, ?_, ?_, ?_, rfl, rfl⟩
    · have hdest : (fun a => ({ destination := addrRouteDest a, gateway := a.gateway } :
          NetworkRoute)) = (fun a => { destination := claimDest a, gateway := a.gateway }) := by
        funext a
        rw [addrRouteDest_eq_claimDest]
      simp [attachedBond, mkBondIface, hdest]
    · intro x hx
      obtain ⟨i, mac, _, _, hxe⟩ := hmem x hx
      rw [hxe]
      exact ⟨rfl, rfl⟩
    · intro x hx
      simp only [List.map_map, List.mem_map] at hx
      obtain ⟨pp, _, rfl⟩ := hx
      exact ⟨rfl, rfl⟩

/-- Witness for C3 at the concrete one-bond, one-private-IPv4-address
input. -/
theorem claim_C3_witness :
    parse_network dnsW niW = .ok (ifacesW, devsW) ∧ devsW ≠ [] ∧
    (∃ phys b0 restB nets tag0,
      ifacesW = (phys ++ (b0 :: restB)) ++ [fallbackIface] ∧
      phys.length = niW.interfaces.length ∧
      mapE addrNet niW.addresses = .ok nets ∧
      b0 = { mkBondIface dnsW tag0 with
             ip_addresses := nets
             routes := niW.addresses.map
               (fun a => { destination := claimDest a, gateway := a.gateway }) } ∧
      (∀ x ∈ phys, x.ip_addresses = [] ∧ x.routes = []) ∧
      (∀ x ∈ restB, x.ip_addresses = [] ∧ x.routes = []) ∧
      fallbackIface.ip_addresses = [] ∧ fallbackIface.routes = []) :=
  ⟨rfl, by decide, claim_C3 dnsW niW ifacesW devsW rfl (by decide)⟩

/-- C10: every emitted bond netdev carries the MAC of the first physical
descriptor, in input order, whose bond tag produced that bond entry (later
descriptors with the same tag are ignored), while every named interface in
the returned list — the synthesized bonds — has no MAC address and no path,
so it is identified by name alone. -/
theorem claim_C10 (dns : List IpAddr) (ni : PacketNetworkInfo)
    (ifaces : List Interface) (devs : List VirtualNetDev)
    (h : parse_network dns ni = .ok (ifaces, devs)) :
    (∀ d ∈ devs, ∃ i, ni.interfaces.find? (fun j => j.bond == some d.name) = some i ∧
      parseMacAddr i.mac = some d.mac_address) ∧
    (∀ x ∈ ifaces, x.name.isSome = true → x.mac_address = none ∧ x.path = none) := by
  obtain ⟨phys, bonds, hp, hB, hlen, hmem, hmacs, hnil, hcons⟩ :=
    parse_network_shape dns ni ifaces devs h
  cases hbonds : bonds with
  | nil =>
    obtain ⟨hif, hdevs⟩ := hnil hbonds
    constructor
    · intro d hd
      rw [hdevs] at hd
      simp at hd
    · intro x hx hname
      rw [hif] at hx
      obtain ⟨i, mac, _, _, hxe⟩ := hmem x hx
      rw [hxe] at hname
      simp [mkPhysIface] at hname
  | cons p rest =>
    obtain ⟨m0, b0⟩ := p
    obtain ⟨nets, attrs, hmap, _, hif, hdevs⟩ := hcons m0 b0 rest hbonds
    rw [hB] at hbonds
    obtain ⟨q, qrest, hd, hfq, hqrest⟩ := mapCons _ _ _ _ hbonds
    simp only [Prod.mk.injEq] at hfq
    obtain ⟨hm0, hb0⟩ := hfq
    subst hqrest
    subst hb0
    subst hm0
    constructor
    · intro d hdmem
      rw [hdevs] at hdmem
      rcases List.mem_cons.mp hdmem with hd1 | hd2
      · have hdn : d.name = q.2 := by rw [hd1]; rfl
        have hdm : d.mac_address = q.1 := by rw [hd1]; rfl
        have hq : (q.1, q.2) ∈ distinctBondsFrom [] ni.interfaces := by
          rw [hd]
          exact List.mem_cons_self _ _
        obtain ⟨_, i, hfind, him⟩ := distinctBonds_find ni.interfaces [] q.1 q.2 hq hmacs
        refine ⟨i, ?_, ?_⟩
        · rw [hdn]
          exact hfind
        · rw [hdm]
          exact him
      · simp only [List.mem_map] at hd2
        obtain ⟨pq, ⟨q2, hq2, hfq2⟩, rfl⟩ := hd2
        subst hfq2
        have hdn : (mkNetDevOf attrs (q2.1, mkBondIface dns q2.2)).name = q2.2 := rfl
        have hdm : (mkNetDevOf attrs (q2.1, mkBondIface dns q2.2)).mac_address = q2.1 := rfl
        have hq : (q2.1, q2.2) ∈ distinctBondsFrom [] ni.interfaces := by
          rw [hd]
          exact List.mem_cons_of_mem _ hq2
        obtain ⟨_, i, hfind, him⟩ := distinctBonds_find ni.interfaces [] q2.1 q2.2 hq hmacs
        refine ⟨i, ?_, ?_⟩
        · rw [hdn]
          exact hfind
        · rw [hdm]
          exact him
    · intro x hx hname
      rw [hif] at hx
      rcases List.mem_append.mp hx with hx1 | hx2
      · rcases List.mem_append.mp hx1 with hx3 | hx4
        · obtain ⟨i, mac, _, _, hxe⟩ := hmem x hx3
          rw [hxe] at hname
          simp [mkPhysIface] at hname
        · rcases List.mem_cons.mp hx4 with hx5 | hx6
          · rw [hx5]
            exact ⟨rfl, rfl⟩
          · simp only [List.map_map, List.mem_map] at hx6
            obtain ⟨pp, _, rfl⟩ := hx6
            exact ⟨rfl, rfl⟩
      · simp only [List.mem_singleton] at hx2
        rw [hx2] at hname
        simp [fallbackIface] at hname

/-- Witness for C10 at the concrete one-bond input. -/
theorem claim_C10_witness :
    parse_network dnsW niW = .ok (ifacesW, devsW) ∧
    (∀ d ∈ devsW, ∃ i, niW.interfaces.find? (fun j => j.bond == some d.name) = some i ∧
      parseMacAddr i.mac = some d.mac_address) ∧
    (∀ x ∈ ifacesW, x.name.isSome = true → x.mac_address = none ∧ x.path = none) :=
  ⟨rfl, claim_C10 dnsW niW ifacesW devsW rfl⟩

theorem static_not_slaac (s : SubnetCfg) (hc : strContains s.subnet_type "static" = true) :
    (s.subnet_type == "ipv6_slaac") = false := by
  cases hb : (s.subnet_type == "ipv6_slaac") with
  | false => rfl
  | true =>
    have he : s.subnet_type = "ipv6_slaac" := eq_of_beq hb
    rw [he] at hc
    exact absurd hc (by decide)

theorem processSubnet_static_shape (i : Interface) (w : List String) (s : SubnetCfg)
    (r : Interface × List String)
    (hr : processSubnet (i, w) s = .ok r)
    (hc : strContains s.subnet_type "static" = true) :
    ∃ a net, s.address = some a ∧
      ((∃ m av mv, s.netmask = some m ∧ parseIpAddr a = some av ∧ parseIpAddr m = some mv ∧
          IpNetwork.with_netmask av mv = .ok net) ∨
        (s.netmask = none ∧ parseIpNetworkStr a = .ok net)) ∧
      r.1.ip_addresses = i.ip_addresses ++ [net] ∧
      r.1.nameservers = i.nameservers ∧
      ((∃ g gw, s.gateway = some g ∧ parseIpAddr g = some gw ∧
          r.1.routes = i.routes ++
            [{ destination := if gw.isIpv6 then IpNetwork.v6 ⟨0, 0, 0, 0, 0, 0, 0, 0⟩ 0
                              else IpNetwork.v4 ⟨0, 0, 0, 0⟩ 0
               gateway := gw }] ∧ r.2 = w) ∨
        (s.gateway = none ∧ r.1.routes = i.routes ∧ r.2 = w ++ [staticNoGatewayWarn])) := by
  have hsl := static_not_slaac s hc
  cases ha : s.address with
  | none =>
    simp [processSubnet, hc, ha] at hr
  | some a =>
    simp only [processSubnet, hc, ha, if_true] at hr
    cases hm : s.netmask with
    | some m =>
      rw [hm] at hr
      dsimp only at hr
      cases hpa : parseIpAddr a with
      | none =>
        rw [hpa] at hr
        simp at hr
      | some av =>
        rw [hpa] at hr
        dsimp only at hr
        cases hpm : parseIpAddr m with
        | none =>
          rw [hpm] at hr
          simp at hr
        | some mv =>
          rw [hpm] at hr
          dsimp only at hr
          cases hwn : IpNetwork.with_netmask av mv with
          | error e =>
            rw [hwn] at hr
            simp at hr
          | ok net =>
            rw [hwn] at hr
            dsimp only at hr
            refine ⟨a, net, rfl, Or.inl ⟨m, av, mv, rfl, hpa, hpm, hwn⟩, ?_⟩
            cases hg : s.gateway with
            | some g =>
              rw [hg] at hr
              dsimp only at hr
              cases hpg : parseIpAddr g with
              | none =>
                rw [hpg] at hr
                simp at hr
              | some gw =>
                rw [hpg] at hr
                dsimp only at hr
                simp only [hsl, Bool.false_eq_true, if_false, Except.ok.injEq] at hr
                rw [← hr]
                exact ⟨rfl, rfl, Or.inl ⟨g, gw, rfl, hpg, rfl, rfl⟩⟩
            | none =>
              rw [hg] at hr
              dsimp only at hr
              simp only [hsl, Bool.false_eq_true, if_false, Except.ok.injEq] at hr
              rw [← hr]
              exact ⟨rfl, rfl, Or.inr ⟨rfl, rfl, rfl⟩⟩
    | none =>
      rw [hm] at hr
      dsimp only at hr
      cases hpn : parseIpNetworkStr a with
      | error e =>
        rw [hpn] at hr
        simp at hr
      | ok net =>
        rw [hpn] at hr
        dsimp only at hr
        refine ⟨a, net, rfl, Or.inr ⟨rfl, hpn⟩, ?_⟩
        cases hg : s.gateway with
        | some g =>
          rw [hg] at hr
          dsimp only at hr
          cases hpg : parseIpAddr g with
          | none =>
            rw [hpg] at hr
            simp at hr
          | some gw =>
            rw [hpg] at hr
            dsimp only at hr
            simp only [hsl, Bool.false_eq_true, if_false, Except.ok.injEq] at hr
            rw [← hr]
            exact ⟨rfl, rfl, Or.inl ⟨g, gw, rfl, hpg, rfl, rfl⟩⟩
        | none =>
          rw [hg] at hr
          dsimp only at hr
          simp only [hsl, Bool.false_eq_true, if_false, Except.ok.injEq] at hr
          rw [← hr]
          exact ⟨rfl, rfl, Or.inr ⟨rfl, rfl, rfl⟩⟩

/-- C6: per subnet of a physical entry — a subnet whose type contains
"static" with no address fails with the missing-address error; with an
address and a netmask the two are combined via `with_netmask`, with an
address alone the address is parsed as a CIDR literal; a present gateway
adds exactly one route whose destination is `::/0` or `0.0.0.0/0` decided
by the gateway's own address family; an absent gateway adds no route and
only emits a warning; a subnet of type exactly `ipv6_slaac` only emits a
warning and produces no address or route. -/
theorem claim_C6 (i : Interface) (w : List String) (s : SubnetCfg) :
    (strContains s.subnet_type "static" = true → s.address = none →
      processSubnet (i, w) s = .error .missingAddress) ∧
    (∀ r a m, processSubnet (i, w) s = .ok r → strContains s.subnet_type "static" = true →
      s.address = some a → s.netmask = some m →
      ∃ av mv net, parseIpAddr a = some av ∧ parseIpAddr m = some mv ∧
        IpNetwork.with_netmask av mv = .ok net ∧
        r.1.ip_addresses = i.ip_addresses ++ [net]) ∧
    (∀ r a, processSubnet (i, w) s = .ok r → strContains s.subnet_type "static" = true →
      s.address = some a → s.netmask = none →
      ∃ net, parseIpNetworkStr a = .ok net ∧
        r.1.ip_addresses = i.ip_addresses ++ [net]) ∧
    (∀ r g, processSubnet (i, w) s = .ok r → strContains s.subnet_type "static" = true →
      s.gateway = some g →
      ∃ gw, parseIpAddr g = some gw ∧
        r.1.routes = i.routes ++
          [{ destination := if gw.isIpv6 then IpNetwork.v6 ⟨0, 0, 0, 0, 0, 0, 0, 0⟩ 0
                            else IpNetwork.v4 ⟨0, 0, 0, 0⟩ 0
             gateway := gw }]) ∧
    (∀ r, processSubnet (i, w) s = .ok r → strContains s.subnet_type "static" = true →
      s.gateway = none → r.1.routes = i.routes ∧ staticNoGatewayWarn ∈ r.2) ∧
    (s.subnet_type = "ipv6_slaac" → processSubnet (i, w) s = .ok (i, w ++ [slaacWarn])) := by
  refine ⟨?_, ?_, ?_, ?_, ?_, ?_⟩
  · intro hc ha
    simp [processSubnet, hc, ha]
  · intro r a m hr hc ha hm
    obtain ⟨a2, net, ha2, hnet, hip, _, _⟩ := processSubnet_static_shape i w s r hr hc
    rw [ha] at ha2
    injection ha2 with ha3
    subst ha3
    rcases hnet with ⟨m2, av, mv, hm2, hpa, hpm, hwn⟩ | ⟨hm2, _⟩
    · rw [hm] at hm2
      injection hm2 with hm3
      subst hm3
      exact ⟨av, mv, net, hpa, hpm, hwn, hip⟩
    · rw [hm] at hm2
      exact absurd hm2 (by simp)
  · intro r a hr hc ha hm
    obtain ⟨a2, net, ha2, hnet, hip, _, _⟩ := processSubnet_static_shape i w s r hr hc
    rw [ha] at ha2
    injection ha2 with ha3
    subst ha3
    rcases hnet with ⟨m2, av, mv, hm2, _, _, _⟩ | ⟨_, hpn⟩
    · rw [hm] at hm2
      exact absurd hm2 (by simp)
    · exact ⟨net, hpn, hip⟩
  · intro r g hr hc hg
    obtain ⟨a2, net, _, _, _, _, hroute⟩ := processSubnet_static_shape i w s r hr hc
    rcases hroute with ⟨g2, gw, hg2, hpg, hrt, _⟩ | ⟨hg2, _, _⟩
    · rw [hg] at hg2
      injection hg2 with hg3
      subst hg3
      exact ⟨gw, hpg, hrt⟩
    · rw [hg] at hg2
      exact absurd hg2 (by simp)
  · intro r hr hc hg
    obtain ⟨a2, net, _, _, _, _, hroute⟩ := processSubnet_static_shape i w s r hr hc
    rcases hroute with ⟨g2, gw, hg2, _, _, _⟩ | ⟨_, hrt, hw⟩
    · rw [hg] at hg2
      exact absurd hg2 (by simp)
    · refine ⟨hrt, ?_⟩
      rw [hw]
      simp
  · intro hst
    have hc : strContains s.subnet_type "static" = false := by
      rw [hst]
      decide
    have hsl : (s.subnet_type == "ipv6_slaac") = true := by
      rw [hst]
      decide
    simp [processSubnet, hc, hsl]

/-- Witness for C6 at a concrete static subnet with a CIDR-literal address
and an IPv4 gateway: the subnet yields one address and one `0.0.0.0/0`
route. -/
theorem claim_C6_witness :
    processSubnet (ifaceW6, []) subnetW6 = .ok resW6 ∧
    strContains subnetW6.subnet_type "static" = true ∧
    subnetW6.gateway = some "10.0.0.1" ∧
    (∃ gw, parseIpAddr "10.0.0.1" = some gw ∧
      resW6.1.routes = ifaceW6.routes ++
        [{ destination := if gw.isIpv6 then IpNetwork.v6 ⟨0, 0, 0, 0, 0, 0, 0, 0⟩ 0
                          else IpNetwork.v4 ⟨0, 0, 0, 0⟩ 0
           gateway := gw }]) :=
  ⟨rfl, rfl, rfl, (claim_C6 ifaceW6 [] subnetW6).2.2.2.1 resW6 "10.0.0.1" rfl rfl rfl⟩

theorem withNetmask_err_ne (a m : IpAddr) (e : AErr)
    (h : IpNetwork.with_netmask a m = .error e) : e ≠ AErr.tooManyNameservers := by
  cases a with
  | v4 x =>
    cases m with
    | v4 y =>
      simp only [IpNetwork.with_netmask] at h
      cases hmp : maskToPrefixLen 32 (v4Val y) with
      | some p =>
        rw [hmp] at h
        simp at h
      | none =>
        rw [hmp] at h
        simp only [Except.error.injEq] at h
        subst h
        simp
    | v6 y =>
      simp only [IpNetwork.with_netmask, Except.error.injEq] at h
      subst h
      simp
  | v6 x =>
    cases m with
    | v4 y =>
      simp only [IpNetwork.with_netmask, Except.error.injEq] at h
      subst h
      simp
    | v6 y =>
      simp only [IpNetwork.with_netmask] at h
      cases hmp : maskToPrefixLen 128 (v6Val y) with
      | some p =>
        rw [hmp] at h
        simp at h
      | none =>
        rw [hmp] at h
        simp only [Except.error.injEq] at h
        subst h
        simp

theorem parseIpNetworkStr_err_ne (s : String) (e : AErr)
    (h : parseIpNetworkStr s = .error e) : e ≠ AErr.tooManyNameservers := by
  unfold parseIpNetworkStr at h
  cases hsp : splitOnChar '/' s.data with
  | nil =>
    rw [hsp] at h
    simp only [Except.error.injEq] at h
    subst h
    simp
  | cons a t =>
    cases t with
    | nil =>
      rw [hsp] at h
      dsimp only at h
      cases hip : parseIpAddr (String.mk a) with
      | none =>
        rw [hip] at h
        simp only [Except.error.injEq] at h
        subst h
        simp
      | some ip =>
        rw [hip] at h
        cases ip <;> simp at h
    | cons p t2 =>
      cases t2 with
      | nil =>
        rw [hsp] at h
        dsimp only at h
        cases hip : parseIpAddr (String.mk a) with
        | none =>
          rw [hip] at h
          dsimp only at h
          simp only [Except.error.injEq] at h
          subst h
          simp
        | some ip =>
          rw [hip] at h
          cases ip with
          | v4 x =>
            cases hnd : parseNatDigits p with
            | none =>
              rw [hnd] at h
              simp only [Except.error.injEq] at h
              subst h
              simp
            | some pl =>
              rw [hnd] at h
              dsimp only at h
              by_cases hle : pl ≤ 32
              · rw [if_pos hle] at h
                simp at h
              · rw [if_neg hle] at h
                simp only [Except.error.injEq] at h
                subst h
                simp
          | v6 x =>
            cases hnd : parseNatDigits p with
            | none =>
              rw [hnd] at h
              simp only [Except.error.injEq] at h
              subst h
              simp
            | some pl =>
              rw [hnd] at h
              dsimp only at h
              by_cases hle : pl ≤ 128
              · rw [if_pos hle] at h
                simp at h
              · rw [if_neg hle] at h
                simp only [Except.error.injEq] at h
                subst h
                simp
      | cons q t3 =>
        rw [hsp] at h
        simp only [Except.error.injEq] at h
        subst h
        simp

theorem processSubnet_err_ne (acc : Interface × List String) (s : SubnetCfg) (e : AErr)
    (h : processSubnet acc s = .error e) : e ≠ AErr.tooManyNameservers := by
  by_cases hc : strContains s.subnet_type "static" = true
  · cases ha : s.address with
    | none =>
      simp only [processSubnet, hc, ha, if_true] at h
      simp only [Except.error.injEq] at h
      subst h
      simp
    | some a =>
      simp only [processSubnet, hc, ha, if_true] at h
      cases hm : s.netmask with
      | some m =>
        rw [hm] at h
        dsimp only at h
        cases hpa : parseIpAddr a with
        | none =>
          rw [hpa] at h
          simp only [Except.error.injEq] at h
          subst h
          simp
        | some av =>
          rw [hpa] at h
          dsimp only at h
          cases hpm : parseIpAddr m with
          | none =>
            rw [hpm] at h
            simp only [Except.error.injEq] at h
            subst h
            simp
          | some mv =>
            rw [hpm] at h
            dsimp only at h
            cases hwn : IpNetwork.with_netmask av mv with
            | error e2 =>
              rw [hwn] at h
              simp only [Except.error.injEq] at h
              subst h
              exact withNetmask_err_ne av mv _ hwn
            | ok net =>
              rw [hwn] at h
              dsimp only at h
              cases hg : s.gateway with
              | some g =>
                rw [hg] at h
                dsimp only at h
                cases hpg : parseIpAddr g with
                | none =>
                  rw [hpg] at h
                  simp only [Except.error.injEq] at h
                  subst h
                  simp
                | some gw =>
                  rw [hpg] at h
                  dsimp only at h
                  by_cases hsl : (s.subnet_type == "ipv6_slaac") = true
                  · rw [hsl] at h
                    simp at h
                  · simp only [Bool.not_eq_true] at hsl
                    rw [hsl] at h
                    simp at h
              | none =>
                rw [hg] at h
                dsimp only at h
                by_cases hsl : (s.subnet_type == "ipv6_slaac") = true
                · rw [hsl] at h
                  simp at h
                · simp only [Bool.not_eq_true] at hsl
                  rw [hsl] at h
                  simp at h
      | none =>
        rw [hm] at h
        dsimp only at h
        cases hpn : parseIpNetworkStr a with
        | error e2 =>
          rw [hpn] at h
          simp only [Except.error.injEq] at h
          subst h
          exact parseIpNetworkStr_err_ne a _ hpn
        | ok net =>
          rw [hpn] at h
          dsimp only at h
          cases hg : s.gateway with
          | some g =>
            rw [hg] at h
            dsimp only at h
            cases hpg : parseIpAddr g with
            | none =>
              rw [hpg] at h
              simp only [Except.error.injEq] at h
              subst h
              simp
            | some gw =>
              rw [hpg] at h
              dsimp only at h
              by_cases hsl : (s.subnet_type == "ipv6_slaac") = true
              · rw [hsl] at h
                simp at h
              · simp only [Bool.not_eq_true] at hsl
                rw [hsl] at h
                simp at h
          | none =>
            rw [hg] at h
            dsimp only at h
            by_cases hsl : (s.subnet_type == "ipv6_slaac") = true
            · rw [hsl] at h
              simp at h
            · simp only [Bool.not_eq_true] at hsl
              rw [hsl] at h
              simp at h
  · simp only [Bool.not_eq_true] at hc
    simp only [processSubnet, hc] at h
    by_cases hsl : (s.subnet_type == "ipv6_slaac") = true
    · rw [hsl] at h
      simp at h
    · simp only [Bool.not_eq_true] at hsl
      rw [hsl] at h
      simp at h

theorem foldSubnets_err_ne (l : List SubnetCfg) :
    ∀ (acc : Interface × List String) (e : AErr),
      foldSubnets l acc = .error e → e ≠ AErr.tooManyNameservers := by
  induction l with
  | nil =>
    intro acc e h
    simp [foldSubnets] at h
  | cons s rest ih =>
    intro acc e h
    simp only [foldSubnets] at h
    cases hps : processSubnet acc s with
    | error e2 =>
      rw [hps] at h
      simp only [Except.error.injEq] at h
      subst h
      exact processSubnet_err_ne acc s _ hps
    | ok acc2 =>
      rw [hps] at h
      exact ih acc2 e h

theorem to_interface_err_ne (en : NetCfgEntry) (e : AErr)
    (h : to_interface en = .error e) : e ≠ AErr.tooManyNameservers := by
  unfold to_interface at h
  by_cases ht : en.network_type ≠ "physical"
  · rw [if_pos ht] at h
    simp only [Except.error.injEq] at h
    subst h
    simp
  · rw [if_neg ht] at h
    cases hfs : foldSubnets en.subnets (baseProxIface en, []) with
    | error e2 =>
      rw [hfs] at h
      simp only [Except.error.injEq] at h
      subst h
      exact foldSubnets_err_ne en.subnets _ _ hfs
    | ok acc =>
      rw [hfs] at h
      dsimp only at h
      cases hma : en.mac_address with
      | none =>
        rw [hma] at h
        simp at h
      | some mstr =>
        rw [hma] at h
        dsimp only at h
        cases hpm : parseMacAddr mstr with
        | none =>
          rw [hpm] at h
          simp only [Except.error.injEq] at h
          subst h
          simp
        | some mv =>
          rw [hpm] at h
          simp at h

theorem mapE_err {α β : Type} (f : α → Except AErr β) (l : List α) (e : AErr)
    (h : mapE f l = .error e) : ∃ x ∈ l, f x = .error e := by
  induction l with
  | nil => simp [mapE] at h
  | cons a rest ih =>
    simp only [mapE] at h
    cases hfa : f a with
    | error e2 =>
      rw [hfa] at h
      simp only [Except.error.injEq] at h
      subst h
      exact ⟨a, by simp, hfa⟩
    | ok b =>
      rw [hfa] at h
      dsimp only at h
      cases hrest : mapE f rest with
      | error e2 =>
        rw [hrest] at h
        simp only [Except.error.injEq] at h
        subst h
        obtain ⟨x, hx, hfx⟩ := ih hrest
        exact ⟨x, by simp [hx], hfx⟩
      | ok bs =>
        rw [hrest] at h
        simp at h

theorem processSubnet_ns (acc : Interface × List String) (s : SubnetCfg)
    (r : Interface × List String) (h : processSubnet acc s = .ok r) :
    r.1.nameservers = acc.1.nameservers := by
  obtain ⟨i0, w0⟩ := acc
  by_cases hc : strContains s.subnet_type "static" = true
  · obtain ⟨a, net, _, _, _, hns, _⟩ := processSubnet_static_shape i0 w0 s r h hc
    exact hns
  · simp only [Bool.not_eq_true] at hc
    simp only [processSubnet, hc, Bool.false_eq_true, if_false] at h
    by_cases hsl : (s.subnet_type == "ipv6_slaac") = true
    · rw [hsl] at h
      simp only [if_true, Except.ok.injEq] at h
      rw [← h]
    · simp only [Bool.not_eq_true] at hsl
      rw [hsl] at h
      simp only [Bool.false_eq_true, if_false, Except.ok.injEq] at h
      rw [← h]

theorem foldSubnets_ns (l : List SubnetCfg) :
    ∀ (acc r : Interface × List String), foldSubnets l acc = .ok r →
      r.1.nameservers = acc.1.nameservers := by
  induction l with
  | nil =>
    intro acc r h
    simp only [foldSubnets, Except.ok.injEq] at h
    rw [← h]
  | cons s rest ih =>
    intro acc r h
    simp only [foldSubnets] at h
    cases hps : processSubnet acc s with
    | error e =>
      rw [hps] at h
      simp at h
    | ok acc2 =>
      rw [hps] at h
      rw [ih acc2 r h, processSubnet_ns acc s acc2 hps]

theorem to_interface_ns (en : NetCfgEntry) (pr : Interface × List String)
    (h : to_interface en = .ok pr) : pr.1.nameservers = [] := by
  unfold to_interface at h
  by_cases ht : en.network_type ≠ "physical"
  · rw [if_pos ht] at h
    simp at h
  · rw [if_neg ht] at h
    cases hfs : foldSubnets en.subnets (baseProxIface en, []) with
    | error e =>
      rw [hfs] at h
      simp at h
    | ok acc =>
      rw [hfs] at h
      dsimp only at h
      have hacc : acc.1.nameservers = [] := foldSubnets_ns en.subnets _ acc hfs
      cases hma : en.mac_address with
      | none =>
        rw [hma] at h
        simp only [Except.ok.injEq] at h
        rw [← h]
        exact hacc
      | some mstr =>
        rw [hma] at h
        dsimp only at h
        cases hpm : parseMacAddr mstr with
        | none =>
          rw [hpm] at h
          simp at h
        | some mv =>
          rw [hpm] at h
          simp only [Except.ok.injEq] at h
          rw [← h]
          exact hacc

theorem mapE_ok_forall {α β : Type} (f : α → Except AErr β) (l : List α) (bs : List β)
    (h : mapE f l = .ok bs) : ∀ b ∈ bs, ∃ a ∈ l, f a = .ok b := by
  induction l generalizing bs with
  | nil =>
    simp only [mapE, Except.ok.injEq] at h
    intro b hb
    rw [← h] at hb
    simp at hb
  | cons a rest ih =>
    simp only [mapE] at h
    cases hfa : f a with
    | error e =>
      rw [hfa] at h
      simp at h
    | ok b0 =>
      rw [hfa] at h
      dsimp only at h
      cases hrest : mapE f rest with
      | error e =>
        rw [hrest] at h
        simp at h
      | ok bs0 =>
        rw [hrest] at h
        simp only [Except.ok.injEq] at h
        rw [← h]
        intro b hb
        rcases List.mem_cons.mp hb with hb1 | hb2
        · exact ⟨a, by simp, by rw [hb1]; exact hfa⟩
        · obtain ⟨a2, ha2, hfa2⟩ := ih bs0 hrest b hb2
          exact ⟨a2, by simp [ha2], hfa2⟩

theorem parseIpAddrE_err_ne (s : String) (e : AErr) (h : parseIpAddrE s = .error e) :
    e ≠ AErr.tooManyNameservers := by
  unfold parseIpAddrE at h
  cases hp : parseIpAddr s with
  | some a =>
    rw [hp] at h
    simp at h
  | none =>
    rw [hp] at h
    simp only [Except.error.injEq] at h
    subst h
    simp

/-- C7: `networks` fails with the too-many-nameservers error exactly when
more than one nameserver-typed entry is present; with exactly one
nameserver entry, its parsed address list is assigned to the first
resulting interface only (positionally), every other interface keeping an
empty nameserver list. -/
theorem claim_C7 (cfg : List NetCfgEntry) (ifaces : List Interface) :
    ((networks cfg = .error .tooManyNameservers) ↔
      1 < (cfg.filter (fun c => c.network_type == "nameserver")).length) ∧
    ((cfg.filter (fun c => c.network_type == "nameserver")).length = 1 →
      networks cfg = .ok ifaces →
      (∀ x ∈ ifaces.drop 1, x.nameservers = []) ∧
      (∀ x, ifaces.head? = some x → ∃ ns0,
        (cfg.filter (fun c => c.network_type == "nameserver")).head? = some ns0 ∧
        mapE parseIpAddrE ns0.address = .ok x.nameservers)) := by
  constructor
  · constructor
    · intro h
      by_contra hle
      have hngt : ¬ 1 < (cfg.filter (fun c => c.network_type == "nameserver")).length := hle
      simp only [networks] at h
      rw [if_neg hngt] at h
      cases hmt : mapE to_interface (cfg.filter (fun c => c.network_type == "physical")) with
      | error e =>
        rw [hmt] at h
        simp only [Except.error.injEq] at h
        obtain ⟨x, _, hfx⟩ := mapE_err _ _ _ hmt
        exact to_interface_err_ne x _ hfx h
      | ok parts =>
        rw [hmt] at h
        dsimp only at h
        cases hpm : parts.map (fun p => p.1) with
        | nil =>
          rw [hpm] at h
          simp at h
        | cons i0 restI =>
          rw [hpm] at h
          cases hns : cfg.filter (fun c => c.network_type == "nameserver") with
          | nil =>
            rw [hns] at h
            simp at h
          | cons ns0 nst =>
            rw [hns] at h
            dsimp only at h
            cases hmp : mapE parseIpAddrE ns0.address with
            | error e =>
              rw [hmp] at h
              simp only [Except.error.injEq] at h
              obtain ⟨x, _, hfx⟩ := mapE_err _ _ _ hmp
              exact parseIpAddrE_err_ne x _ hfx h
            | ok addrs =>
              rw [hmp] at h
              simp at h
    · intro hgt
      simp only [networks]
      rw [if_pos hgt]
  · intro hcount hok
    have hngt : ¬ 1 < (cfg.filter (fun c => c.network_type == "nameserver")).length := by
      omega
    simp only [networks] at hok
    rw [if_neg hngt] at hok
    cases hmt : mapE to_interface (cfg.filter (fun c => c.network_type == "physical")) with
    | error e =>
      rw [hmt] at hok
      simp at hok
    | ok parts =>
      rw [hmt] at hok
      dsimp only at hok
      obtain ⟨ns0, hns⟩ := List.length_eq_one.mp hcount
      rw [hns] at hok
      cases hpm : parts.map (fun p => p.1) with
      | nil =>
        rw [hpm] at hok
        dsimp only at hok
        simp only [Except.ok.injEq] at hok
        rw [← hok]
        exact ⟨by simp, by simp⟩
      | cons i0 restI =>
        rw [hpm] at hok
        dsimp only at hok
        cases hmp : mapE parseIpAddrE ns0.address with
        | error e =>
          rw [hmp] at hok
          simp at hok
        | ok addrs =>
          rw [hmp] at hok
          simp only [Except.ok.injEq] at hok
          constructor
          · intro x hx
            rw [← hok] at hx
            simp only [List.drop_succ_cons, List.drop_zero] at hx
            have hx2 : x ∈ parts.map (fun p => p.1) := by
              rw [hpm]
              exact List.mem_cons_of_mem _ hx
            simp only [List.mem_map] at hx2
            obtain ⟨pr, hpr, hpx⟩ := hx2
            obtain ⟨en, _, hfen⟩ := mapE_ok_forall _ _ _ hmt pr hpr
            rw [← hpx]
            exact to_interface_ns en pr hfen
          · intro x hx
            rw [← hok] at hx
            simp only [List.head?_cons, Option.some.injEq] at hx
            refine ⟨ns0, by rw [hns]; rfl, ?_⟩
            rw [← hx]
            exact hmp

/-- Witness for C7 at a concrete input with one physical entry and one
nameserver entry carrying `8.8.8.8`. -/
theorem claim_C7_witness :
    ([entryPhysW, entryNsW].filter (fun c => c.network_type == "nameserver")).length = 1 ∧
    networks [entryPhysW, entryNsW] = .ok [ifaceW7] ∧
    ((∀ x ∈ [ifaceW7].drop 1, x.nameservers = []) ∧
     (∀ x, ([ifaceW7] : List Interface).head? = some x → ∃ ns0,
       ([entryPhysW, entryNsW].filter (fun c => c.network_type == "nameserver")).head? =
         some ns0 ∧
       mapE parseIpAddrE ns0.address = .ok x.nameservers)) :=
  ⟨rfl, rfl, (claim_C7 [entryPhysW, entryNsW] [ifaceW7]).2 rfl rfl⟩
